import Mathlib

/-
Verification of the zone-interaction gesture engine of the NEU_LP_React
installation software. The definitions below are a shallow embedding of
the TypeScript sources: src/utils.ts, src/utils/physicsLogic.ts,
src/components/CanvasLayer.tsx (runtime-map synchronisation effect) and
the useHandTracking hook (coordinate transform and hand selection).
JavaScript numbers are modelled as real numbers; JavaScript booleans as
Bool; nullable values as Option. Media elements (HTMLAudioElement,
gifler animations) are modelled by their attachment state, and the
side effects performed on them (play and pause calls) are modelled as
explicit action lists returned by the functions that perform them.
-/

namespace NeuLP

/-- A 2D point with optional depth in millimeters (src/types.ts, Point). -/
structure Point where
  x : ℝ
  y : ℝ
  depth : Option ℝ

/-- Zone configuration (src/types.ts, CircleConfig). -/
structure CircleConfig where
  id : String
  name : String
  x : ℝ
  y : ℝ
  radius : ℝ
  lineWidth : ℝ
  color : String
  imgPath : Option String
  audioPath : Option String
  volume : Option ℝ

/-- Per-zone runtime state (src/types.ts, CircleRuntime). The media
element handles audioEl and gifAnim are modelled by the source URL of an
attached audio element and a flag for an attached gif animation; the
image element and gif canvas fields play no role in any verified claim
and carry no engine state, so they are not modelled. -/
structure CircleRuntime where
  isFilled : Bool
  wasFilled : Bool
  graceLeft : ℝ
  lastAngle : Option ℝ
  cwAccum : ℝ
  rotAngle : ℝ
  lastCWTime : ℝ
  isHandInside : Bool
  audioEl : Option String
  gifAnim : Bool

/-- Camera type setting (src/types.ts, AppSettings.cameraType). -/
inductive CameraType where
  | standard
  | professional
deriving DecidableEq, Repr

/-- The engine-relevant application settings (src/types.ts, AppSettings).
Fields that only drive UI rendering are not modelled. -/
structure AppSettings where
  rotationDeg : ℝ
  scale : ℝ
  mirrorView : Bool
  cameraType : CameraType
  depthTriggerMm : ℝ
  isMappingEdit : Bool

/-- Media side effects performed by updateCirclePhysics
(src/utils/physicsLogic.ts): audio element play and pause, gif
animation play and pause. -/
inductive MediaAction where
  | audioPlay
  | audioPause
  | gifPlay
  | gifPause
deriving DecidableEq, Repr

/-! ### src/utils.ts -/

/-- Replace the first occurrence of pat in s by rep, the semantics of
the JavaScript String.replace with a string pattern, used by
normalizeUrl. -/
def replaceFirst (s pat rep : String) : String :=
  match s.splitOn pat with
  | [] => s
  | [_] => s
  | a :: b :: rest => a ++ rep ++ String.intercalate pat (b :: rest)

/-- Whether pat occurs in s (JavaScript String.includes). -/
def strIncludes (s pat : String) : Bool :=
  match s.splitOn pat with
  | [] => false
  | [_] => false
  | _ :: _ :: _ => true

/-- src/utils.ts normalizeUrl: rewrite GitHub blob URLs to raw content
URLs, pass everything else through. -/
def normalizeUrl (url : String) : String :=
  if url = "" then ""
  else if strIncludes url "github.com" ∧ strIncludes url "/blob/" then
    replaceFirst (replaceFirst url "github.com" "raw.githubusercontent.com") "/blob/" "/"
  else url

/-- src/utils.ts smoothPoint: exponential moving average of a pointer
sample; with no previous value the current sample passes through, and
depth always passes through unsmoothed. -/
noncomputable def smoothPoint (prev : Option Point) (curr : Point) (alpha : ℝ) : Point :=
  match prev with
  | none => curr
  | some p =>
    { x := p.x * (1 - alpha) + curr.x * alpha
      y := p.y * (1 - alpha) + curr.y * alpha
      depth := curr.depth }

/-- src/utils.ts smoothLandmarks: pointwise exponential moving average
of a landmark list; if the previous list is absent or its length
differs from the new sample, the new sample passes through. The
source maps over curr with an index into prev; with equal lengths this
is the pointwise zip written here. -/
noncomputable def smoothLandmarks (prev : Option (List Point)) (curr : List Point)
    (alpha : ℝ) : List Point :=
  match prev with
  | none => curr
  | some ps =>
    if ps.length = curr.length then
      List.zipWith
        (fun pp p =>
          { x := pp.x * (1 - alpha) + p.x * alpha
            y := pp.y * (1 - alpha) + p.y * alpha
            depth := p.depth }) ps curr
    else curr

/-- The two-argument arctangent, the semantics of JavaScript
Math.atan2 on real arguments. -/
noncomputable def atan2 (y x : ℝ) : ℝ :=
  if 0 < x then Real.arctan (y / x)
  else if x < 0 then
    (if 0 ≤ y then Real.arctan (y / x) + Real.pi else Real.arctan (y / x) - Real.pi)
  else
    (if 0 < y then Real.pi / 2 else if y < 0 then -(Real.pi / 2) else 0)

/-- src/utils.ts calculateAngle: angle in degrees of the point (px,py)
as seen from the center (cx,cy). -/
noncomputable def calculateAngle (cx cy px py : ℝ) : ℝ :=
  atan2 (py - cy) (px - cx) * (180 / Real.pi)

/-- First loop of src/utils.ts angleDiff: while d greater than 180,
subtract 360. -/
noncomputable def wrapDown (d : ℝ) : ℝ :=
  if h : 180 < d then wrapDown (d - 360) else d
termination_by (⌈(d - 180) / 360⌉).toNat
decreasing_by
  have h1 : (0:ℝ) < (d - 180) / 360 := by
    apply div_pos (by linarith) (by norm_num)
  have h2 : (1:ℤ) ≤ ⌈(d - 180) / 360⌉ := Int.ceil_pos.mpr h1
  have h3 : (d - 360 - 180) / 360 = (d - 180) / 360 - 1 := by ring
  rw [h3, Int.ceil_sub_one]
  omega

/-- Second loop of src/utils.ts angleDiff: while d less than -180,
add 360. -/
noncomputable def wrapUp (d : ℝ) : ℝ :=
  if h : d < -180 then wrapUp (d + 360) else d
termination_by (⌈(-180 - d) / 360⌉).toNat
decreasing_by
  have h1 : (0:ℝ) < (-180 - d) / 360 := by
    apply div_pos (by linarith) (by norm_num)
  have h2 : (1:ℤ) ≤ ⌈(-180 - d) / 360⌉ := Int.ceil_pos.mpr h1
  have h3 : (-180 - (d + 360)) / 360 = (-180 - d) / 360 - 1 := by ring
  rw [h3, Int.ceil_sub_one]
  omega

/-- src/utils.ts angleDiff: signed angular difference b - a brought
into range by the two wrapping loops. -/
noncomputable def angleDiff (a b : ℝ) : ℝ :=
  wrapUp (wrapDown (b - a))

/-! ### src/utils/physicsLogic.ts -/

/-- Constant ROTATE_TARGET_DEG of physicsLogic.ts. -/
noncomputable def ROTATE_TARGET_DEG : ℝ := 90

/-- Constant STILL_EPS_DEG of physicsLogic.ts. -/
noncomputable def STILL_EPS_DEG : ℝ := 2

/-- Constant LEAVE_MARGIN_RATIO of physicsLogic.ts (0.18). -/
noncomputable def LEAVE_MARGIN_FACTOR : ℝ := 0.18

/-- Constant MIN_LEAVE_MARGIN_PX of physicsLogic.ts. -/
noncomputable def MIN_LEAVE_MARGIN_PX : ℝ := 8

/-- Constant LEAVE_GRACE_FRAMES of physicsLogic.ts. -/
noncomputable def LEAVE_GRACE_FRAMES : ℝ := 10

/-- Constant SPIN_GRACE_MS of physicsLogic.ts. -/
noncomputable def SPIN_GRACE_MS : ℝ := 2000

/-- Constant ROT_SPEED_DEG_PER_SEC of physicsLogic.ts. -/
noncomputable def ROT_SPEED_DEG_PER_SEC : ℝ := 45

/-- Euclidean distance of the fingertip from the zone center
(physicsLogic.ts lines 42 to 44). -/
noncomputable def distTo (c : CircleConfig) (t : Point) : ℝ :=
  Real.sqrt ((t.x - c.x) * (t.x - c.x) + (t.y - c.y) * (t.y - c.y))

/-- The hysteresis margin of a zone (physicsLogic.ts line 45). -/
noncomputable def marginOf (c : CircleConfig) : ℝ :=
  max MIN_LEAVE_MARGIN_PX (c.radius * LEAVE_MARGIN_FACTOR)

/-- Visual containment with hysteresis (physicsLogic.ts lines 47 to 52):
inside the radius, or already hand-inside and inside radius plus
margin. -/
noncomputable def visualInside (c : CircleConfig) (rt : CircleRuntime) (t : Point) : Bool :=
  if distTo c t ≤ c.radius then true
  else if rt.isHandInside = true ∧ distTo c t ≤ c.radius + marginOf c then true
  else false

/-- The isActivated computation of physicsLogic.ts lines 54 to 74
together with the grace-counter update it performs in standard mode:
returns the activation flag and the new graceLeft value. -/
noncomputable def activationCheck (c : CircleConfig) (rt : CircleRuntime) (t : Point)
    (s : AppSettings) (effDepth : ℝ) : Bool × ℝ :=
  if s.cameraType = CameraType.professional then
    if 0 < effDepth then
      (visualInside c rt t && decide (effDepth < s.depthTriggerMm), rt.graceLeft)
    else
      (visualInside c rt t, rt.graceLeft)
  else
    if visualInside c rt t = true then (true, LEAVE_GRACE_FRAMES)
    else if rt.isHandInside = true ∧ 0 < rt.graceLeft then (true, rt.graceLeft - 1)
    else (false, rt.graceLeft)

/-- The outside-to-inside transition of physicsLogic.ts lines 76 to 79:
on becoming activated while not hand-inside, set hand-inside and clear
the last-angle reference. -/
noncomputable def enterUpdate (rt : CircleRuntime) (isAct : Bool) : CircleRuntime :=
  if rt.isHandInside = false ∧ isAct = true then
    { rt with isHandInside := true, lastAngle := none }
  else rt

/-- The exit reset of physicsLogic.ts lines 99 to 105. -/
def exitReset (rt : CircleRuntime) : CircleRuntime :=
  { rt with isHandInside := false, isFilled := false, cwAccum := 0,
            lastAngle := none, graceLeft := 0 }

/-- The accumulator update of physicsLogic.ts lines 84 to 92, given the
previous angle la and the current angle ang. -/
noncomputable def cwUpdate (rt : CircleRuntime) (la ang now : ℝ) : CircleRuntime :=
  let diff := angleDiff la ang
  if STILL_EPS_DEG ≤ |diff| then
    if 0 < diff then
      { rt with cwAccum := rt.cwAccum + |diff|, lastCWTime := now }
    else
      { rt with cwAccum := max 0 (rt.cwAccum - |diff| * 0.5) }
  else rt

/-- The activated branch of physicsLogic.ts lines 81 to 98: apply the
accumulator update when a previous angle exists, store the current
angle, and recompute the activation flag from the accumulator target
and the freshness window. -/
noncomputable def insideStep (c : CircleConfig) (rt2 : CircleRuntime) (t : Point)
    (now : ℝ) : CircleRuntime :=
  let ang := calculateAngle c.x c.y t.x t.y
  let rt3 :=
    match rt2.lastAngle with
    | some la => cwUpdate rt2 la ang now
    | none => rt2
  let rt4 := { rt3 with lastAngle := some ang }
  { rt4 with
    isFilled := decide (ROTATE_TARGET_DEG ≤ rt4.cwAccum ∧ now - rt4.lastCWTime ≤ SPIN_GRACE_MS) }

/-- The physics part of the per-zone body of updateCirclePhysics
(physicsLogic.ts lines 41 to 117), before the media edge detection:
returns the updated runtime together with the media actions performed
inside this part (the gif pause of line 115). -/
noncomputable def physicsPhase (c : CircleConfig) (rt : CircleRuntime) (tip : Option Point)
    (s : AppSettings) (effDepth now : ℝ) : CircleRuntime × List MediaAction :=
  match tip with
  | some t =>
    let ac := activationCheck c rt t s effDepth
    let rt2 := enterUpdate { rt with graceLeft := ac.2 } ac.1
    if ac.1 = true then (insideStep c rt2 t now, [])
    else (exitReset rt2, [])
  | none =>
    let filled := decide (ROTATE_TARGET_DEG ≤ rt.cwAccum ∧ now - rt.lastCWTime ≤ SPIN_GRACE_MS)
    if now - rt.lastCWTime ≤ SPIN_GRACE_MS then
      ({ rt with isFilled := filled }, [])
    else
      ({ rt with isFilled := filled, isHandInside := false, lastAngle := none, cwAccum := 0 },
       if rt.gifAnim then [MediaAction.gifPause] else [])

/-- The media edge detection of physicsLogic.ts lines 119 to 132,
evaluated on the runtime produced by the physics part (whose wasFilled
field is still the previous-frame activation flag): the actions fired
on a transition of the activation flag. -/
def edgeActions (rt : CircleRuntime) : List MediaAction :=
  if rt.wasFilled = false ∧ rt.isFilled = true then
    (if rt.audioEl.isSome then [MediaAction.audioPlay] else []) ++
    (if rt.gifAnim then [MediaAction.gifPlay] else [])
  else if rt.wasFilled = true ∧ rt.isFilled = false then
    (if rt.audioEl.isSome then [MediaAction.audioPause] else []) ++
    (if rt.gifAnim then [MediaAction.gifPause] else [])
  else []

/-- The JavaScript remainder a % b for a nonnegative dividend and
positive divisor, as used for the visual spin angle. -/
noncomputable def jsMod (a b : ℝ) : ℝ := a - b * ⌊a / b⌋

/-- The visual spin advance of physicsLogic.ts lines 134 to 136. -/
noncomputable def spinUpdate (rt : CircleRuntime) : CircleRuntime :=
  if rt.isFilled = true then
    let spun := jsMod (rt.rotAngle + ROT_SPEED_DEG_PER_SEC * Real.pi / 180 * 0.016) (Real.pi * 2)
    { rt with rotAngle := spun }
  else rt

/-- The whole per-zone body of the circles.forEach of
updateCirclePhysics (physicsLogic.ts lines 37 to 138): physics part,
media edge detection, spin advance and the wasFilled update, returning
the new runtime and the media actions performed, in order. -/
noncomputable def stepCircle (c : CircleConfig) (rt : CircleRuntime) (tip : Option Point)
    (s : AppSettings) (effDepth now : ℝ) : CircleRuntime × List MediaAction :=
  let pr := physicsPhase c rt tip s effDepth now
  let acts := pr.2 ++ edgeActions pr.1
  let rt6 := spinUpdate pr.1
  ({ rt6 with wasFilled := rt6.isFilled }, acts)

/-- The effective depth computation of physicsLogic.ts lines 27 to 35:
fingertip depth if present and positive, else the truthy global center
depth, else 0; always 0 outside professional mode. -/
noncomputable def effectiveDepthOf (s : AppSettings) (tip : Option Point)
    (globalDepthMm : Option ℝ) : ℝ :=
  if s.cameraType = CameraType.professional then
    match tip with
    | some t =>
      match t.depth with
      | some d =>
        if 0 < d then d
        else match globalDepthMm with
             | some g => if g ≠ 0 then g else 0
             | none => 0
      | none =>
        match globalDepthMm with
        | some g => if g ≠ 0 then g else 0
        | none => 0
    | none =>
      match globalDepthMm with
      | some g => if g ≠ 0 then g else 0
      | none => 0
  else 0

/-- The runtime map, keyed by zone id; the JavaScript Map preserves
insertion order and holds at most one entry per key. -/
abbrev RtMap := List (String × CircleRuntime)

/-- The keys of a runtime map. -/
def keysOf (m : RtMap) : List String := m.map Prod.fst

/-- Replace the value stored at key k (JavaScript Map.set on an
existing key: in-place update, order preserved). -/
def writeEntry (m : RtMap) (k : String) (v : CircleRuntime) : RtMap :=
  m.map (fun e => if e.1 = k then (e.1, v) else e)

/-- src/utils/physicsLogic.ts updateCirclePhysics: the guard on
settings.isMappingEdit, the effective depth computation, and the loop
over the configured circles, skipping ids without a runtime entry.
Returns the updated runtime map and the media actions performed. -/
noncomputable def updateCirclePhysics (circles : List CircleConfig) (m : RtMap)
    (tip : Option Point) (s : AppSettings) (globalDepthMm : Option ℝ) (now : ℝ) :
    RtMap × List MediaAction :=
  if s.isMappingEdit = true then (m, [])
  else
    let effDepth := effectiveDepthOf s tip globalDepthMm
    circles.foldl
      (fun acc c =>
        match acc.1.lookup c.id with
        | none => acc
        | some rt =>
          let pr := stepCircle c rt tip s effDepth now
          (writeEntry acc.1 c.id pr.1, acc.2 ++ pr.2))
      (m, [])

/-! ### useHandTracking hook: coordinate transform and hand selection -/

/-- The transformCoords helper of the useHandTracking hook: map a
normalized tracking-space coordinate to a normalized canvas-space
point, composing cover-scale placement with global zoom, rotation
around the canvas center, and the mirror flip, then renormalizing.
The hook returns the raw coordinate when no canvas exists; the model
assumes a canvas with dimensions cw by ch and a video source with
dimensions vw by vh. -/
noncomputable def transformCoords (s : AppSettings) (cw ch vw vh rawX rawY : ℝ) : Point :=
  let scaleW := cw / vw
  let scaleH := ch / vh
  let baseScale := max scaleW scaleH
  let finalScale := baseScale * s.scale
  let projectedW := vw * finalScale
  let projectedH := vh * finalScale
  let offsetX := (cw - projectedW) / 2
  let offsetY := (ch - projectedH) / 2
  let px0 := rawX * projectedW + offsetX
  let py0 := rawY * projectedH + offsetY
  let rotated :=
    if s.rotationDeg ≠ 0 then
      let cx := cw / 2
      let cy := ch / 2
      let rad := s.rotationDeg * (Real.pi / 180)
      let dx := px0 - cx
      let dy := py0 - cy
      (dx * Real.cos rad - dy * Real.sin rad + cx, dx * Real.sin rad + dy * Real.cos rad + cy)
    else (px0, py0)
  let px := if s.mirrorView then cw - rotated.1 else rotated.1
  { x := px / cw, y := rotated.2 / ch, depth := none }

/-- A raw landmark of a remote-bridge hand (src/types.ts, RemoteHand
landmark entry). -/
structure RawLandmark where
  x : ℝ
  y : ℝ
  z : ℝ
  depth_mm : Option ℝ

/-- A candidate hand: 21 landmarks, as produced both by the local
estimator and by the remote bridge (src/types.ts RemoteHand). -/
structure HandData where
  landmarks : Fin 21 → RawLandmark

/-- Index of the interaction fingertip landmark (INDEX_TIP = 8). -/
def INDEX_TIP : Fin 21 := ⟨8, by norm_num⟩

/-- The visibility check of the hand-selection loops of the
useHandTracking hook (onResults lines 124 to 135 and analyzeFrame
lines 225 to 234): the transformed fingertip must lie inside the unit
square. -/
noncomputable def tipVisible (tf : ℝ → ℝ → Point) (h : HandData) : Prop :=
  let rawTip := h.landmarks INDEX_TIP
  let tTip := tf rawTip.x rawTip.y
  0 ≤ tTip.x ∧ tTip.x ≤ 1 ∧ 0 ≤ tTip.y ∧ tTip.y ≤ 1

noncomputable instance (tf : ℝ → ℝ → Point) (h : HandData) : Decidable (tipVisible tf h) := by
  unfold tipVisible
  infer_instance

/-- The hand-selection loop shared by the local onResults callback and
the remote branch of analyzeFrame: walk the candidate list and pick
the first hand whose transformed fingertip passes the visibility
check, or none. The transform tf is the transformCoords closure. -/
noncomputable def selectValidHand (tf : ℝ → ℝ → Point) : List HandData → Option HandData
  | [] => none
  | h :: rest => if tipVisible tf h then some h else selectValidHand tf rest

/-! ### CanvasLayer runtime-map synchronisation (CanvasLayer.tsx lines 60 to 122) -/

/-- Observable effects of the runtime synchronisation step: pausing the
audio element attached to a zone id, and deleting the runtime entry of
a zone id. The log produced by syncRuntime lists them in execution
order. -/
inductive SyncAction where
  | audioOff (id : String)
  | removed (id : String)
deriving DecidableEq, Repr

/-- The freshly created runtime record of CanvasLayer.tsx lines 63 to
67. -/
noncomputable def defaultRuntime : CircleRuntime :=
  { isFilled := false, wasFilled := false, graceLeft := 0, lastAngle := none,
    cwAccum := 0, rotAngle := 0, lastCWTime := 0, isHandInside := false,
    audioEl := none, gifAnim := false }

/-- The normalized audio source of a zone configuration
(CanvasLayer.tsx line 72: empty when no audio path is configured). -/
def audioSrcOf (c : CircleConfig) : String :=
  match c.audioPath with
  | some s => normalizeUrl s
  | none => ""

/-- The audio-element maintenance of CanvasLayer.tsx lines 99 to 108 on
one runtime entry: attach a new audio element when the source is new,
pausing any old one; detach and pause when no audio is configured. -/
def audioUpdate (c : CircleConfig) (rt : CircleRuntime) : CircleRuntime × List SyncAction :=
  let na := audioSrcOf c
  if na ≠ "" then
    match rt.audioEl with
    | none => ({ rt with audioEl := some na }, [])
    | some src =>
      if src ≠ na then ({ rt with audioEl := some na }, [SyncAction.audioOff c.id])
      else (rt, [])
  else
    match rt.audioEl with
    | some _ => ({ rt with audioEl := none }, [SyncAction.audioOff c.id])
    | none => (rt, [])

/-- One iteration of the circles.forEach of CanvasLayer.tsx lines 61 to
111: create the runtime entry if the id is new, then maintain its
audio element. The image and gif loading of lines 74 to 97 touches no
modelled state and no audio element and is not modelled. -/
noncomputable def ensureStep (m : RtMap) (c : CircleConfig) : RtMap × List SyncAction :=
  let m1 := if (m.lookup c.id).isSome then m else m ++ [(c.id, defaultRuntime)]
  match m1.lookup c.id with
  | none => (m1, [])
  | some rt =>
    let pr := audioUpdate c rt
    (writeEntry m1 c.id pr.1, pr.2)

/-- The cleanup loop of CanvasLayer.tsx lines 113 to 121: walk the
runtime entries in insertion order; an entry whose id is no longer
configured has its attached audio paused and is then deleted. -/
def cleanupEntries (keep : List String) : RtMap → RtMap × List SyncAction
  | [] => ([], [])
  | (k, rt) :: rest =>
    let pr := cleanupEntries keep rest
    if k ∈ keep then ((k, rt) :: pr.1, pr.2)
    else (pr.1,
      (if rt.audioEl.isSome then [SyncAction.audioOff k] else []) ++
        (SyncAction.removed k :: pr.2))

/-- The circles.forEach loop of CanvasLayer.tsx lines 61 to 111 as a
fold of ensureStep, threading the action log. -/
noncomputable def ensureAll (circles : List CircleConfig) (acc : RtMap × List SyncAction) :
    RtMap × List SyncAction :=
  circles.foldl (fun acc c =>
    let pr := ensureStep acc.1 c
    (pr.1, acc.2 ++ pr.2)) acc

/-- The whole runtime synchronisation effect of CanvasLayer.tsx lines
60 to 122: ensure an entry per configured id, then remove entries of
vanished ids, pausing their audio first. -/
noncomputable def syncRuntime (circles : List CircleConfig) (m : RtMap) : RtMap × List SyncAction :=
  let p1 := ensureAll circles (m, [])
  let p2 := cleanupEntries (circles.map (fun c => c.id)) p1.1
  (p2.1, p1.2 ++ p2.2)

/-! ### Sequences of physics calls (for the counter-clockwise invariant) -/

/-- The inputs of one updateCirclePhysics call as seen by a single
zone. -/
structure PhysCall where
  tip : Option Point
  settings : AppSettings
  globalDepthMm : Option ℝ
  now : ℝ

/-- The runtime of a zone after one physics call. -/
noncomputable def callStep (c : CircleConfig) (rt : CircleRuntime) (k : PhysCall) :
    CircleRuntime :=
  (stepCircle c rt k.tip k.settings (effectiveDepthOf k.settings k.tip k.globalDepthMm) k.now).1

/-- The signed angular difference computed by a physics call on a zone,
when one is computed at all: the call must carry a fingertip, the zone
must be activated, and a previous angle reference must survive the
entry transition (which clears it when the hand was outside). -/
noncomputable def diffOfCall (c : CircleConfig) (rt : CircleRuntime) (k : PhysCall) :
    Option ℝ :=
  match k.tip with
  | none => none
  | some t =>
    let eff := effectiveDepthOf k.settings k.tip k.globalDepthMm
    if (activationCheck c rt t k.settings eff).1 = true then
      if rt.isHandInside = true then
        match rt.lastAngle with
        | some la => some (angleDiff la (calculateAngle c.x c.y t.x t.y))
        | none => none
      else none
    else none

/-- The runtimes of a zone after each call of a sequence. -/
noncomputable def runStates (c : CircleConfig) : CircleRuntime → List PhysCall →
    List CircleRuntime
  | _, [] => []
  | rt, k :: ks =>
    let rt1 := callStep c rt k
    rt1 :: runStates c rt1 ks

/-- A purely counter-clockwise sequence of calls: every angular
difference a call computes is negative. -/
def ccwRun (c : CircleConfig) : CircleRuntime → List PhysCall → Prop
  | _, [] => True
  | rt, k :: ks =>
    (∀ d, diffOfCall c rt k = some d → d < 0) ∧ ccwRun c (callStep c rt k) ks

/-! ### Smoothing iteration (for the convergence property) -/

/-- Euclidean distance between two points, ignoring depth. -/
noncomputable def ptDist (p q : Point) : ℝ :=
  Real.sqrt ((p.x - q.x) * (p.x - q.x) + (p.y - q.y) * (p.y - q.y))

/-- n applications of smoothPoint with the constant input c. -/
noncomputable def iterSmooth (c : Point) (alpha : ℝ) : ℕ → Point → Point
  | 0, p => p
  | n + 1, p => iterSmooth c alpha n (smoothPoint (some p) c alpha)

/-! ### Concrete sample values for witnesses and counterexamples -/

/-- A zone at center (100,100) with radius 50 (the zone of the concrete
containment scenario of the spec). -/
noncomputable def zone100 : CircleConfig :=
  { id := "z1", name := "zone one", x := 100, y := 100, radius := 50,
    lineWidth := 2, color := "white", imgPath := none, audioPath := none, volume := none }

/-- A zone at the origin with radius 50. -/
noncomputable def zoneO : CircleConfig :=
  { id := "z0", name := "zone zero", x := 0, y := 0, radius := 50,
    lineWidth := 2, color := "white", imgPath := none, audioPath := none, volume := none }

/-- Standard-mode settings with no zoom, rotation, mirroring or
mapping editing. -/
noncomputable def stdSettings : AppSettings :=
  { rotationDeg := 0, scale := 1, mirrorView := false,
    cameraType := CameraType.standard, depthTriggerMm := 0, isMappingEdit := false }

/-- The standard settings with projection-mapping editing switched
on. -/
noncomputable def editSettings : AppSettings :=
  { rotationDeg := 0, scale := 1, mirrorView := false,
    cameraType := CameraType.standard, depthTriggerMm := 0, isMappingEdit := true }

/-- A runtime with the hand inside at previous angle 0 and part of an
accumulation. -/
noncomputable def rtInside0 : CircleRuntime :=
  { isFilled := false, wasFilled := false, graceLeft := 10, lastAngle := some 0,
    cwAccum := 5, rotAngle := 0, lastCWTime := 0, isHandInside := true,
    audioEl := none, gifAnim := false }

/-- A runtime with the hand inside, previous angle 1 degree, and an
accumulator already past the rotation target. -/
noncomputable def rtCharged : CircleRuntime :=
  { isFilled := false, wasFilled := false, graceLeft := 10, lastAngle := some 1,
    cwAccum := 100, rotAngle := 0, lastCWTime := 0, isHandInside := true,
    audioEl := none, gifAnim := false }

/-- A runtime that was activated on the previous frame, with audio and
a gif animation attached, whose last clockwise increment is stale by
3000 milliseconds at time 3000. -/
noncomputable def rtStale : CircleRuntime :=
  { isFilled := true, wasFilled := true, graceLeft := 0, lastAngle := some 0,
    cwAccum := 100, rotAngle := 0, lastCWTime := 0, isHandInside := false,
    audioEl := some "a.mp3", gifAnim := true }

/-! ## Lemmas about the angle wrapping loops -/

theorem wrapDown_eq (d : ℝ) : wrapDown d = if 180 < d then wrapDown (d - 360) else d := by
  rw [wrapDown]
  split <;> rfl

theorem wrapUp_eq (d : ℝ) : wrapUp d = if d < -180 then wrapUp (d + 360) else d := by
  rw [wrapUp]
  split <;> rfl

theorem wrapDown_le (d : ℝ) : wrapDown d ≤ 180 := by
  induction d using wrapDown.induct with
  | case1 d h ih =>
    rw [wrapDown_eq, if_pos h]
    exact ih
  | case2 d h =>
    rw [wrapDown_eq, if_neg h]
    exact le_of_not_lt h

theorem wrapDown_cases (d : ℝ) : wrapDown d = d ∨ -180 < wrapDown d := by
  induction d using wrapDown.induct with
  | case1 d h ih =>
    rw [wrapDown_eq, if_pos h]
    rcases ih with h1 | h1
    · right
      rw [h1]
      linarith
    · right
      exact h1
  | case2 d h =>
    left
    rw [wrapDown_eq, if_neg h]

theorem wrapUp_ge (d : ℝ) : -180 ≤ wrapUp d := by
  induction d using wrapUp.induct with
  | case1 d h ih =>
    rw [wrapUp_eq, if_pos h]
    exact ih
  | case2 d h =>
    rw [wrapUp_eq, if_neg h]
    exact le_of_not_lt h

theorem wrapUp_cases (d : ℝ) : wrapUp d = d ∨ wrapUp d < 180 := by
  induction d using wrapUp.induct with
  | case1 d h ih =>
    rw [wrapUp_eq, if_pos h]
    rcases ih with h1 | h1
    · right
      rw [h1]
      linarith
    · right
      exact h1
  | case2 d h =>
    left
    rw [wrapUp_eq, if_neg h]

theorem wrapDown_of_not_gt (d : ℝ) (h : ¬ 180 < d) : wrapDown d = d := by
  rw [wrapDown_eq, if_neg h]

theorem wrapUp_of_not_lt (d : ℝ) (h : ¬ d < -180) : wrapUp d = d := by
  rw [wrapUp_eq, if_neg h]

theorem angleDiff_le (a b : ℝ) : angleDiff a b ≤ 180 := by
  unfold angleDiff
  rcases wrapUp_cases (wrapDown (b - a)) with h | h
  · rw [h]
    exact wrapDown_le (b - a)
  · linarith

theorem angleDiff_ge (a b : ℝ) : -180 ≤ angleDiff a b := wrapUp_ge _

theorem angleDiff_self (a : ℝ) : angleDiff a a = 0 := by
  unfold angleDiff
  rw [sub_self, wrapDown_of_not_gt 0 (by norm_num), wrapUp_of_not_lt 0 (by norm_num)]

/-! ## Claim C7 -/

/-- Claim C7, counterexample to the claimed half-open range: the value
angleDiff 180 0 is exactly -180, which lies outside the half-open
interval (-180, 180]. -/
theorem c7_counterexample :
    angleDiff 180 0 = -180 ∧ ¬ (-180 < angleDiff 180 0 ∧ angleDiff 180 0 ≤ 180) := by
  have h : angleDiff 180 0 = -180 := by
    unfold angleDiff
    norm_num
    rw [wrapDown_of_not_gt (-180) (by norm_num), wrapUp_of_not_lt (-180) (by norm_num)]
  refine ⟨h, ?_⟩
  rw [h]
  intro hc
  exact lt_irrefl _ hc.1

/-- Claim C7, amended: for all real inputs a and b, angleDiff a b
returns a value in the closed interval from -180 to 180 (the endpoint
-180 is attained, so the interval cannot be half-open), and
angleDiff 350 10 equals 20. -/
theorem c7_angleDiff_range :
    (∀ a b : ℝ, -180 ≤ angleDiff a b ∧ angleDiff a b ≤ 180) ∧
      angleDiff (350 : ℝ) (10 : ℝ) = 20 := by
  constructor
  · intro a b
    exact ⟨angleDiff_ge a b, angleDiff_le a b⟩
  · unfold angleDiff
    norm_num
    rw [wrapDown_of_not_gt (-340) (by norm_num)]
    rw [wrapUp_eq, if_pos (by norm_num : (-340 : ℝ) < -180)]
    norm_num
    exact wrapUp_of_not_lt 20 (by norm_num)

/-! ## Lemmas about the smoothing filter -/

theorem smoothPoint_fixed (c : Point) (alpha : ℝ) : smoothPoint (some c) c alpha = c := by
  unfold smoothPoint
  cases c with
  | mk x y depth =>
    simp only [Point.mk.injEq]
    refine ⟨by ring, by ring, by trivial⟩

theorem smoothPoint_dist (p c : Point) (alpha : ℝ) (h1 : alpha ≤ 1) :
    ptDist (smoothPoint (some p) c alpha) c = (1 - alpha) * ptDist p c := by
  unfold smoothPoint ptDist
  simp only
  have hsum :
      (p.x * (1 - alpha) + c.x * alpha - c.x) * (p.x * (1 - alpha) + c.x * alpha - c.x) +
        (p.y * (1 - alpha) + c.y * alpha - c.y) * (p.y * (1 - alpha) + c.y * alpha - c.y) =
      (1 - alpha) ^ 2 * ((p.x - c.x) * (p.x - c.x) + (p.y - c.y) * (p.y - c.y)) := by
    ring
  rw [hsum, Real.sqrt_mul (sq_nonneg _), Real.sqrt_sq (by linarith : (0:ℝ) ≤ 1 - alpha)]

theorem iterSmooth_dist (c : Point) (alpha : ℝ) (h1 : alpha ≤ 1) :
    ∀ (n : ℕ) (p : Point),
      ptDist (iterSmooth c alpha n p) c = (1 - alpha) ^ n * ptDist p c := by
  intro n
  induction n with
  | zero =>
    intro p
    simp [iterSmooth]
  | succ n ih =>
    intro p
    have : iterSmooth c alpha (n + 1) p = iterSmooth c alpha n (smoothPoint (some p) c alpha) :=
      rfl
    rw [this, ih, smoothPoint_dist p c alpha h1]
    ring

/-! ## Claim C9 -/

/-- Claim C9: smoothPoint with an absent previous value returns the
current sample unchanged; smoothLandmarks with an absent previous
value, or one whose element count differs from the new sample, returns
the new sample unchanged; and for every point c, any starting point
and any smoothing factor alpha with 0 below alpha at most 1, repeated
application of smoothPoint with constant input c converges to c: c is
a fixed point, each application shrinks the distance to c by the
factor 1 - alpha, after n applications the distance is scaled by that
factor to the n, and the distance tends to 0. -/
theorem c9_smoothing_passthrough_and_convergence :
    (∀ (c : Point) (alpha : ℝ), smoothPoint none c alpha = c) ∧
    (∀ (curr : List Point) (alpha : ℝ), smoothLandmarks none curr alpha = curr) ∧
    (∀ (ps curr : List Point) (alpha : ℝ), ps.length ≠ curr.length →
      smoothLandmarks (some ps) curr alpha = curr) ∧
    (∀ (c : Point) (alpha : ℝ), 0 < alpha → alpha ≤ 1 →
      smoothPoint (some c) c alpha = c) ∧
    (∀ (p c : Point) (alpha : ℝ), 0 < alpha → alpha ≤ 1 →
      ptDist (smoothPoint (some p) c alpha) c = (1 - alpha) * ptDist p c) ∧
    (∀ (p c : Point) (alpha : ℝ) (n : ℕ), 0 < alpha → alpha ≤ 1 →
      ptDist (iterSmooth c alpha n p) c = (1 - alpha) ^ n * ptDist p c) ∧
    (∀ (p c : Point) (alpha : ℝ), 0 < alpha → alpha ≤ 1 →
      Filter.Tendsto (fun n => ptDist (iterSmooth c alpha n p) c)
        Filter.atTop (nhds 0)) := by
  refine ⟨fun c alpha => rfl, fun curr alpha => rfl, ?_, ?_, ?_, ?_, ?_⟩
  · intro ps curr alpha hne
    simp only [smoothLandmarks]
    rw [if_neg hne]
  · intro c alpha _ _
    exact smoothPoint_fixed c alpha
  · intro p c alpha _ h1
    exact smoothPoint_dist p c alpha h1
  · intro p c alpha n _ h1
    exact iterSmooth_dist c alpha h1 n p
  · intro p c alpha h0 h1
    have hfun : (fun n => ptDist (iterSmooth c alpha n p) c) =
        fun n : ℕ => (1 - alpha) ^ n * ptDist p c := by
      funext n
      exact iterSmooth_dist c alpha h1 n p
    rw [hfun]
    have hgeo : Filter.Tendsto (fun n : ℕ => (1 - alpha) ^ n) Filter.atTop (nhds 0) :=
      tendsto_pow_atTop_nhds_zero_of_lt_one (by linarith) (by linarith)
    simpa using hgeo.mul_const (ptDist p c)

/-- Claim C9, witness: the hypotheses of the convergence statement hold
at alpha one half, length 1 versus length 0, and a concrete pair of
points. -/
theorem c9_witness :
    ((1 : ℕ) ≠ 0 ∧
      smoothLandmarks (some [Point.mk 1 1 none]) [] (1/2) = []) ∧
    ((0:ℝ) < 1/2 ∧ (1/2 : ℝ) ≤ 1 ∧
      ptDist (smoothPoint (some (Point.mk 0 0 none)) (Point.mk 2 0 none) (1/2))
          (Point.mk 2 0 none) =
        (1 - 1/2) * ptDist (Point.mk 0 0 none) (Point.mk 2 0 none)) := by
  constructor
  · exact ⟨by norm_num,
      c9_smoothing_passthrough_and_convergence.2.2.1 [Point.mk 1 1 none] [] (1/2)
        (by norm_num)⟩
  · exact ⟨by norm_num, by norm_num,
      c9_smoothing_passthrough_and_convergence.2.2.2.2.1 (Point.mk 0 0 none)
        (Point.mk 2 0 none) (1/2) (by norm_num) (by norm_num)⟩

/-! ## Claim C6 -/

/-- Claim C6: for every candidate hand list and every transform closure
of the hook (transformCoords at any settings and dimensions), the
selection loop returns the first candidate whose transformed fingertip
lies in the unit square; a selected hand always passes the visibility
check, a hand that fails it is never selected, and when every
candidate fails it (in particular a sole candidate present in the raw
data) no hand is selected. -/
theorem c6_select_first_visible (s : AppSettings) (cw ch vw vh : ℝ) :
    (∀ (hands : List HandData) (h : HandData),
      selectValidHand (transformCoords s cw ch vw vh) hands = some h →
        h ∈ hands ∧ tipVisible (transformCoords s cw ch vw vh) h) ∧
    (∀ (pre post : List HandData) (h : HandData),
      (∀ h' ∈ pre, ¬ tipVisible (transformCoords s cw ch vw vh) h') →
      tipVisible (transformCoords s cw ch vw vh) h →
        selectValidHand (transformCoords s cw ch vw vh) (pre ++ h :: post) = some h) ∧
    (∀ (hands : List HandData) (h : HandData),
      ¬ tipVisible (transformCoords s cw ch vw vh) h →
        selectValidHand (transformCoords s cw ch vw vh) hands ≠ some h) ∧
    (∀ hands : List HandData,
      (∀ h ∈ hands, ¬ tipVisible (transformCoords s cw ch vw vh) h) →
        selectValidHand (transformCoords s cw ch vw vh) hands = none) := by
  set tf := transformCoords s cw ch vw vh with htf
  have hsel : ∀ (hands : List HandData) (h : HandData),
      selectValidHand tf hands = some h → h ∈ hands ∧ tipVisible tf h := by
    intro hands
    induction hands with
    | nil =>
      intro h hsome
      simp [selectValidHand] at hsome
    | cons a rest ih =>
      intro h hsome
      rw [selectValidHand] at hsome
      by_cases hv : tipVisible tf a
      · rw [if_pos hv] at hsome
        cases hsome
        exact ⟨List.mem_cons_self a rest, hv⟩
      · rw [if_neg hv] at hsome
        rcases ih h hsome with ⟨hmem, hvis⟩
        exact ⟨List.mem_cons_of_mem a hmem, hvis⟩
  have hfirst : ∀ (pre post : List HandData) (h : HandData),
      (∀ h' ∈ pre, ¬ tipVisible tf h') → tipVisible tf h →
        selectValidHand tf (pre ++ h :: post) = some h := by
    intro pre
    induction pre with
    | nil =>
      intro post h _ hv
      rw [List.nil_append, selectValidHand, if_pos hv]
    | cons a rest ih =>
      intro post h hall hv
      rw [List.cons_append, selectValidHand,
        if_neg (hall a (List.mem_cons_self a rest))]
      exact ih post h (fun h' hm => hall h' (List.mem_cons_of_mem a hm)) hv
  have hnone : ∀ hands : List HandData,
      (∀ h ∈ hands, ¬ tipVisible tf h) → selectValidHand tf hands = none := by
    intro hands
    induction hands with
    | nil =>
      intro _
      rw [selectValidHand]
    | cons a rest ih =>
      intro hall
      rw [selectValidHand, if_neg (hall a (List.mem_cons_self a rest))]
      exact ih (fun h hm => hall h (List.mem_cons_of_mem a hm))
  refine ⟨hsel, hfirst, ?_, hnone⟩
  intro hands h hv hsome
  exact hv (hsel hands h hsome).2

/-- Claim C6, witness: with the identity-shaped transform (no zoom, no
rotation, no mirror, square canvas matching the source) a sole
candidate hand whose fingertip maps to x = 2 fails the visibility
check and is not selected. -/
theorem c6_witness :
    (¬ tipVisible
        (transformCoords (AppSettings.mk 0 1 false CameraType.standard 0 false) 100 100 100 100)
        (HandData.mk (fun _ => RawLandmark.mk 2 0.5 0 none))) ∧
      selectValidHand
        (transformCoords (AppSettings.mk 0 1 false CameraType.standard 0 false) 100 100 100 100)
        [HandData.mk (fun _ => RawLandmark.mk 2 0.5 0 none)] = none := by
  have hnv : ¬ tipVisible
      (transformCoords (AppSettings.mk 0 1 false CameraType.standard 0 false) 100 100 100 100)
      (HandData.mk (fun _ => RawLandmark.mk 2 0.5 0 none)) := by
    simp only [tipVisible, transformCoords]
    norm_num
  refine ⟨hnv, ?_⟩
  exact (c6_select_first_visible (AppSettings.mk 0 1 false CameraType.standard 0 false)
    100 100 100 100).2.2.2 [HandData.mk (fun _ => RawLandmark.mk 2 0.5 0 none)]
    (by
      intro h hm
      rw [List.mem_singleton] at hm
      rw [hm]
      exact hnv)

/-! ## Field lemmas for the physics step -/

theorem enterUpdate_wasFilled (rt : CircleRuntime) (b : Bool) :
    (enterUpdate rt b).wasFilled = rt.wasFilled := by
  unfold enterUpdate
  split <;> rfl

theorem enterUpdate_isFilled (rt : CircleRuntime) (b : Bool) :
    (enterUpdate rt b).isFilled = rt.isFilled := by
  unfold enterUpdate
  split <;> rfl

theorem enterUpdate_cwAccum (rt : CircleRuntime) (b : Bool) :
    (enterUpdate rt b).cwAccum = rt.cwAccum := by
  unfold enterUpdate
  split <;> rfl

theorem enterUpdate_lastCWTime (rt : CircleRuntime) (b : Bool) :
    (enterUpdate rt b).lastCWTime = rt.lastCWTime := by
  unfold enterUpdate
  split <;> rfl

theorem enterUpdate_graceLeft (rt : CircleRuntime) (b : Bool) :
    (enterUpdate rt b).graceLeft = rt.graceLeft := by
  unfold enterUpdate
  split <;> rfl

theorem enterUpdate_audioEl (rt : CircleRuntime) (b : Bool) :
    (enterUpdate rt b).audioEl = rt.audioEl := by
  unfold enterUpdate
  split <;> rfl

theorem enterUpdate_gifAnim (rt : CircleRuntime) (b : Bool) :
    (enterUpdate rt b).gifAnim = rt.gifAnim := by
  unfold enterUpdate
  split <;> rfl

theorem cwUpdate_wasFilled (rt : CircleRuntime) (la ang now : ℝ) :
    (cwUpdate rt la ang now).wasFilled = rt.wasFilled := by
  unfold cwUpdate
  dsimp only
  split
  · split <;> rfl
  · rfl

theorem cwUpdate_isHandInside (rt : CircleRuntime) (la ang now : ℝ) :
    (cwUpdate rt la ang now).isHandInside = rt.isHandInside := by
  unfold cwUpdate
  dsimp only
  split
  · split <;> rfl
  · rfl

theorem cwUpdate_graceLeft (rt : CircleRuntime) (la ang now : ℝ) :
    (cwUpdate rt la ang now).graceLeft = rt.graceLeft := by
  unfold cwUpdate
  dsimp only
  split
  · split <;> rfl
  · rfl

theorem cwUpdate_audioEl (rt : CircleRuntime) (la ang now : ℝ) :
    (cwUpdate rt la ang now).audioEl = rt.audioEl := by
  unfold cwUpdate
  dsimp only
  split
  · split <;> rfl
  · rfl

theorem cwUpdate_gifAnim (rt : CircleRuntime) (la ang now : ℝ) :
    (cwUpdate rt la ang now).gifAnim = rt.gifAnim := by
  unfold cwUpdate
  dsimp only
  split
  · split <;> rfl
  · rfl

/-- The accumulator update at a glance: the branch taken by cwUpdate on
the accumulator and timestamp, phrased through the computed
difference. -/
theorem cwUpdate_spec (rt : CircleRuntime) (la ang now : ℝ) :
    (STILL_EPS_DEG ≤ |angleDiff la ang| → 0 < angleDiff la ang →
      (cwUpdate rt la ang now).cwAccum = rt.cwAccum + |angleDiff la ang| ∧
      (cwUpdate rt la ang now).lastCWTime = now) ∧
    (STILL_EPS_DEG ≤ |angleDiff la ang| → angleDiff la ang < 0 →
      (cwUpdate rt la ang now).cwAccum = max 0 (rt.cwAccum - |angleDiff la ang| * 0.5) ∧
      (cwUpdate rt la ang now).lastCWTime = rt.lastCWTime) ∧
    (|angleDiff la ang| < STILL_EPS_DEG →
      (cwUpdate rt la ang now).cwAccum = rt.cwAccum ∧
      (cwUpdate rt la ang now).lastCWTime = rt.lastCWTime) := by
  unfold cwUpdate
  dsimp only
  refine ⟨?_, ?_, ?_⟩
  · intro hbig hpos
    rw [if_pos hbig, if_pos hpos]
    exact ⟨rfl, rfl⟩
  · intro hbig hneg
    rw [if_pos hbig, if_neg (by linarith : ¬ 0 < angleDiff la ang)]
    exact ⟨rfl, rfl⟩
  · intro hsmall
    rw [if_neg (by linarith : ¬ STILL_EPS_DEG ≤ |angleDiff la ang|)]
    exact ⟨rfl, rfl⟩

theorem insideStep_wasFilled (c : CircleConfig) (rt2 : CircleRuntime) (t : Point) (now : ℝ) :
    (insideStep c rt2 t now).wasFilled = rt2.wasFilled := by
  unfold insideStep
  cases h : rt2.lastAngle with
  | none => rfl
  | some la => exact cwUpdate_wasFilled rt2 la _ now

theorem insideStep_audioEl (c : CircleConfig) (rt2 : CircleRuntime) (t : Point) (now : ℝ) :
    (insideStep c rt2 t now).audioEl = rt2.audioEl := by
  unfold insideStep
  cases h : rt2.lastAngle with
  | none => rfl
  | some la => exact cwUpdate_audioEl rt2 la _ now

theorem insideStep_gifAnim (c : CircleConfig) (rt2 : CircleRuntime) (t : Point) (now : ℝ) :
    (insideStep c rt2 t now).gifAnim = rt2.gifAnim := by
  unfold insideStep
  cases h : rt2.lastAngle with
  | none => rfl
  | some la => exact cwUpdate_gifAnim rt2 la _ now

theorem insideStep_graceLeft (c : CircleConfig) (rt2 : CircleRuntime) (t : Point) (now : ℝ) :
    (insideStep c rt2 t now).graceLeft = rt2.graceLeft := by
  unfold insideStep
  cases h : rt2.lastAngle with
  | none => rfl
  | some la => exact cwUpdate_graceLeft rt2 la _ now

theorem insideStep_isHandInside (c : CircleConfig) (rt2 : CircleRuntime) (t : Point) (now : ℝ) :
    (insideStep c rt2 t now).isHandInside = rt2.isHandInside := by
  unfold insideStep
  cases h : rt2.lastAngle with
  | none => rfl
  | some la => exact cwUpdate_isHandInside rt2 la _ now

/-- The recomputed activation flag of the activated branch: true
exactly when the updated accumulator has reached the target and the
updated timestamp is fresh. -/
theorem insideStep_isFilled (c : CircleConfig) (rt2 : CircleRuntime) (t : Point) (now : ℝ) :
    (insideStep c rt2 t now).isFilled =
      decide (ROTATE_TARGET_DEG ≤ (insideStep c rt2 t now).cwAccum ∧
        now - (insideStep c rt2 t now).lastCWTime ≤ SPIN_GRACE_MS) := by
  unfold insideStep
  cases h : rt2.lastAngle with
  | none => rfl
  | some la => rfl

theorem spinUpdate_isFilled (rt : CircleRuntime) : (spinUpdate rt).isFilled = rt.isFilled := by
  unfold spinUpdate
  split <;> rfl

theorem spinUpdate_cwAccum (rt : CircleRuntime) : (spinUpdate rt).cwAccum = rt.cwAccum := by
  unfold spinUpdate
  split <;> rfl

theorem spinUpdate_lastCWTime (rt : CircleRuntime) :
    (spinUpdate rt).lastCWTime = rt.lastCWTime := by
  unfold spinUpdate
  split <;> rfl

theorem spinUpdate_isHandInside (rt : CircleRuntime) :
    (spinUpdate rt).isHandInside = rt.isHandInside := by
  unfold spinUpdate
  split <;> rfl

theorem spinUpdate_graceLeft (rt : CircleRuntime) :
    (spinUpdate rt).graceLeft = rt.graceLeft := by
  unfold spinUpdate
  split <;> rfl

theorem spinUpdate_lastAngle (rt : CircleRuntime) :
    (spinUpdate rt).lastAngle = rt.lastAngle := by
  unfold spinUpdate
  split <;> rfl

theorem stepCircle_isFilled (c : CircleConfig) (rt : CircleRuntime) (tip : Option Point)
    (s : AppSettings) (eff now : ℝ) :
    (stepCircle c rt tip s eff now).1.isFilled =
      (physicsPhase c rt tip s eff now).1.isFilled := by
  unfold stepCircle
  exact spinUpdate_isFilled _

theorem stepCircle_cwAccum (c : CircleConfig) (rt : CircleRuntime) (tip : Option Point)
    (s : AppSettings) (eff now : ℝ) :
    (stepCircle c rt tip s eff now).1.cwAccum =
      (physicsPhase c rt tip s eff now).1.cwAccum := by
  unfold stepCircle
  exact spinUpdate_cwAccum _

theorem stepCircle_lastCWTime (c : CircleConfig) (rt : CircleRuntime) (tip : Option Point)
    (s : AppSettings) (eff now : ℝ) :
    (stepCircle c rt tip s eff now).1.lastCWTime =
      (physicsPhase c rt tip s eff now).1.lastCWTime := by
  unfold stepCircle
  exact spinUpdate_lastCWTime _

theorem stepCircle_isHandInside (c : CircleConfig) (rt : CircleRuntime) (tip : Option Point)
    (s : AppSettings) (eff now : ℝ) :
    (stepCircle c rt tip s eff now).1.isHandInside =
      (physicsPhase c rt tip s eff now).1.isHandInside := by
  unfold stepCircle
  exact spinUpdate_isHandInside _

theorem stepCircle_graceLeft (c : CircleConfig) (rt : CircleRuntime) (tip : Option Point)
    (s : AppSettings) (eff now : ℝ) :
    (stepCircle c rt tip s eff now).1.graceLeft =
      (physicsPhase c rt tip s eff now).1.graceLeft := by
  unfold stepCircle
  exact spinUpdate_graceLeft _

theorem stepCircle_acts (c : CircleConfig) (rt : CircleRuntime) (tip : Option Point)
    (s : AppSettings) (eff now : ℝ) :
    (stepCircle c rt tip s eff now).2 =
      (physicsPhase c rt tip s eff now).2 ++
        edgeActions (physicsPhase c rt tip s eff now).1 := rfl

theorem physicsPhase_wasFilled (c : CircleConfig) (rt : CircleRuntime) (tip : Option Point)
    (s : AppSettings) (eff now : ℝ) :
    (physicsPhase c rt tip s eff now).1.wasFilled = rt.wasFilled := by
  unfold physicsPhase
  cases tip with
  | none =>
    dsimp only
    split <;> rfl
  | some t =>
    dsimp only
    split
    · rw [insideStep_wasFilled, enterUpdate_wasFilled]
    · rw [exitReset, enterUpdate_wasFilled]

theorem physicsPhase_audioEl (c : CircleConfig) (rt : CircleRuntime) (tip : Option Point)
    (s : AppSettings) (eff now : ℝ) :
    (physicsPhase c rt tip s eff now).1.audioEl = rt.audioEl := by
  unfold physicsPhase
  cases tip with
  | none =>
    dsimp only
    split <;> rfl
  | some t =>
    dsimp only
    split
    · rw [insideStep_audioEl, enterUpdate_audioEl]
    · rw [exitReset, enterUpdate_audioEl]

theorem physicsPhase_gifAnim (c : CircleConfig) (rt : CircleRuntime) (tip : Option Point)
    (s : AppSettings) (eff now : ℝ) :
    (physicsPhase c rt tip s eff now).1.gifAnim = rt.gifAnim := by
  unfold physicsPhase
  cases tip with
  | none =>
    dsimp only
    split <;> rfl
  | some t =>
    dsimp only
    split
    · rw [insideStep_gifAnim, enterUpdate_gifAnim]
    · rw [exitReset, enterUpdate_gifAnim]

theorem enterUpdate_isHandInside_true (rt : CircleRuntime) :
    (enterUpdate rt true).isHandInside = true := by
  unfold enterUpdate
  split
  · rfl
  · rename_i h
    cases hb : rt.isHandInside
    · exact absurd ⟨hb, rfl⟩ h
    · rfl

theorem enterUpdate_of_inside (rt : CircleRuntime) (b : Bool) (h : rt.isHandInside = true) :
    enterUpdate rt b = rt := by
  unfold enterUpdate
  rw [if_neg]
  intro hc
  rw [h] at hc
  exact Bool.true_eq_false.mp hc.1

theorem enterUpdate_of_outside (rt : CircleRuntime) (h : rt.isHandInside = false) :
    enterUpdate rt true = { rt with isHandInside := true, lastAngle := none } := by
  unfold enterUpdate
  rw [if_pos ⟨h, rfl⟩]

theorem cwUpdate_still (rt : CircleRuntime) (la ang now : ℝ)
    (h : |angleDiff la ang| < STILL_EPS_DEG) : cwUpdate rt la ang now = rt := by
  unfold cwUpdate
  dsimp only
  rw [if_neg (by linarith : ¬ STILL_EPS_DEG ≤ |angleDiff la ang|)]

theorem insideStep_of_lastAngle_some (c : CircleConfig) (rt2 : CircleRuntime) (t : Point)
    (now la : ℝ) (h : rt2.lastAngle = some la) :
    insideStep c rt2 t now =
      { cwUpdate rt2 la (calculateAngle c.x c.y t.x t.y) now with
          lastAngle := some (calculateAngle c.x c.y t.x t.y),
          isFilled := decide (ROTATE_TARGET_DEG ≤
              (cwUpdate rt2 la (calculateAngle c.x c.y t.x t.y) now).cwAccum ∧
            now - (cwUpdate rt2 la (calculateAngle c.x c.y t.x t.y) now).lastCWTime ≤
              SPIN_GRACE_MS) } := by
  unfold insideStep
  rw [h]

theorem insideStep_of_lastAngle_none (c : CircleConfig) (rt2 : CircleRuntime) (t : Point)
    (now : ℝ) (h : rt2.lastAngle = none) :
    insideStep c rt2 t now =
      { rt2 with
          lastAngle := some (calculateAngle c.x c.y t.x t.y),
          isFilled := decide (ROTATE_TARGET_DEG ≤ rt2.cwAccum ∧
            now - rt2.lastCWTime ≤ SPIN_GRACE_MS) } := by
  unfold insideStep
  rw [h]

/-! ## Claim C10 -/

/-- Claim C10: whenever the mapping-edit setting is on,
updateCirclePhysics returns immediately: the runtime map is unchanged
and no media action is performed, for every circle list, fingertip,
depth and timestamp. -/
theorem c10_mapping_edit_freeze (circles : List CircleConfig) (m : RtMap)
    (tip : Option Point) (s : AppSettings) (gd : Option ℝ) (now : ℝ)
    (h : s.isMappingEdit = true) :
    updateCirclePhysics circles m tip s gd now = (m, []) := by
  unfold updateCirclePhysics
  rw [if_pos h]

/-- Claim C10, witness: with mapping editing switched on, a call on a
concrete configuration and map is the identity and fires nothing. -/
theorem c10_witness :
    editSettings.isMappingEdit = true ∧
      updateCirclePhysics [zone100] [("z1", rtInside0)] (some (Point.mk 100 100 none))
        editSettings none 16 = ([("z1", rtInside0)], []) :=
  ⟨rfl, c10_mapping_edit_freeze [zone100] [("z1", rtInside0)]
    (some (Point.mk 100 100 none)) editSettings none 16 rfl⟩

theorem visualInside_of_dist_le (c : CircleConfig) (rt : CircleRuntime) (t : Point)
    (hd : distTo c t ≤ c.radius) : visualInside c rt t = true := by
  unfold visualInside
  rw [if_pos hd]

/-! ## Claim C4 -/

/-- Claim C4: with margin max(8, radius times 0.18), a fingertip at
distance at most the radius is inside; an already hand-inside zone
stays inside up to radius plus margin; a zone not hand-inside with the
fingertip strictly beyond the radius is not inside. Concretely, for a
zone with center (100,100) and radius 50 in standard mode, a fingertip
at (100,100) makes hand-inside true and resets the grace counter to
its maximum of 10 frames. -/
theorem c4_inside_hysteresis :
    (∀ (c : CircleConfig) (rt : CircleRuntime) (t : Point),
      distTo c t ≤ c.radius → visualInside c rt t = true) ∧
    (∀ (c : CircleConfig) (rt : CircleRuntime) (t : Point),
      rt.isHandInside = true → distTo c t ≤ c.radius + marginOf c →
        visualInside c rt t = true) ∧
    (∀ (c : CircleConfig) (rt : CircleRuntime) (t : Point),
      rt.isHandInside = false → c.radius < distTo c t →
        visualInside c rt t = false) ∧
    (∀ (c : CircleConfig) (rt : CircleRuntime) (s : AppSettings) (eff now : ℝ),
      s.cameraType = CameraType.standard →
      c.x = 100 → c.y = 100 → c.radius = 50 →
        (stepCircle c rt (some (Point.mk 100 100 none)) s eff now).1.isHandInside = true ∧
        (stepCircle c rt (some (Point.mk 100 100 none)) s eff now).1.graceLeft =
          LEAVE_GRACE_FRAMES) := by
  refine ⟨fun c rt t hd => visualInside_of_dist_le c rt t hd, ?_, ?_, ?_⟩
  · intro c rt t hh hd
    unfold visualInside
    by_cases h1 : distTo c t ≤ c.radius
    · rw [if_pos h1]
    · rw [if_neg h1, if_pos ⟨hh, hd⟩]
  · intro c rt t hh hd
    unfold visualInside
    rw [if_neg (by linarith : ¬ distTo c t ≤ c.radius), if_neg]
    intro hc
    rw [hh] at hc
    exact Bool.false_eq_true.mp hc.1
  · intro c rt s eff now hcam hx hy hr
    have hdist : distTo c (Point.mk 100 100 none) = 0 := by
      unfold distTo
      rw [hx, hy]
      norm_num
    have hvis : visualInside c rt (Point.mk 100 100 none) = true := by
      apply visualInside_of_dist_le
      rw [hdist, hr]
      norm_num
    have hact : activationCheck c rt (Point.mk 100 100 none) s eff =
        (true, LEAVE_GRACE_FRAMES) := by
      unfold activationCheck
      rw [if_neg (by rw [hcam]; intro hc; cases hc), if_pos hvis]
    rw [stepCircle_isHandInside, stepCircle_graceLeft]
    unfold physicsPhase
    dsimp only
    rw [hact]
    dsimp only
    rw [if_pos rfl]
    constructor
    · rw [insideStep_isHandInside]
      exact enterUpdate_isHandInside_true _
    · rw [insideStep_graceLeft, enterUpdate_graceLeft]

/-- Claim C4, witness: the hypotheses of the four parts hold at the
concrete zone with center (100,100) and radius 50: a fingertip at the
center (distance 0), a hand-inside zone with the fingertip at distance
58 (inside the 59 pixel hysteresis band), a not-inside zone with the
fingertip at distance 60, and the concrete standard-mode entry
scenario. -/
theorem c4_witness :
    (distTo zone100 (Point.mk 100 100 none) ≤ zone100.radius ∧
      visualInside zone100 rtInside0 (Point.mk 100 100 none) = true) ∧
    (rtCharged.isHandInside = true ∧
      distTo zone100 (Point.mk 158 100 none) ≤ zone100.radius + marginOf zone100 ∧
      visualInside zone100 rtCharged (Point.mk 158 100 none) = true) ∧
    (rtInside0.wasFilled = false ∧
      zone100.radius < distTo zone100 (Point.mk 160 100 none) ∧
      visualInside zone100 { rtInside0 with isHandInside := false }
        (Point.mk 160 100 none) = false) ∧
    (stdSettings.cameraType = CameraType.standard ∧
      (stepCircle zone100 rtInside0 (some (Point.mk 100 100 none))
          stdSettings 0 16).1.isHandInside = true ∧
      (stepCircle zone100 rtInside0 (some (Point.mk 100 100 none))
          stdSettings 0 16).1.graceLeft = LEAVE_GRACE_FRAMES) := by
  have hd0 : distTo zone100 (Point.mk 100 100 none) = 0 := by
    unfold distTo zone100
    norm_num
  have hd58 : distTo zone100 (Point.mk 158 100 none) = 58 := by
    unfold distTo zone100
    norm_num
    rw [show (3364:ℝ) = 58 ^ 2 by norm_num, Real.sqrt_sq (by norm_num : (0:ℝ) ≤ 58)]
  have hd60 : distTo zone100 (Point.mk 160 100 none) = 60 := by
    unfold distTo zone100
    norm_num
    rw [show (3600:ℝ) = 60 ^ 2 by norm_num, Real.sqrt_sq (by norm_num : (0:ℝ) ≤ 60)]
  have hr : zone100.radius = 50 := rfl
  have hmar : marginOf zone100 = 9 := by
    unfold marginOf zone100 MIN_LEAVE_MARGIN_PX LEAVE_MARGIN_FACTOR
    norm_num
  refine ⟨⟨?_, ?_⟩, ⟨rfl, ?_, ?_⟩, ⟨rfl, ?_, ?_⟩, ⟨rfl, ?_⟩⟩
  · rw [hd0, hr]
    norm_num
  · exact c4_inside_hysteresis.1 zone100 rtInside0 (Point.mk 100 100 none)
      (by rw [hd0, hr]; norm_num)
  · rw [hd58, hr, hmar]
    norm_num
  · exact c4_inside_hysteresis.2.1 zone100 rtCharged (Point.mk 158 100 none) rfl
      (by rw [hd58, hr, hmar]; norm_num)
  · rw [hd60, hr]
    norm_num
  · exact c4_inside_hysteresis.2.2.1 zone100 { rtInside0 with isHandInside := false }
      (Point.mk 160 100 none) rfl (by rw [hd60, hr]; norm_num)
  · exact c4_inside_hysteresis.2.2.2 zone100 rtInside0 stdSettings 0 16 rfl rfl rfl rfl

/-- On an activated tick with the hand already inside, the physics part
is exactly the inside step on the grace-updated runtime. -/
theorem physicsPhase_inside (c : CircleConfig) (rt : CircleRuntime) (t : Point)
    (s : AppSettings) (eff now : ℝ)
    (hact : (activationCheck c rt t s eff).1 = true)
    (hinside : rt.isHandInside = true) :
    physicsPhase c rt (some t) s eff now =
      (insideStep c { rt with graceLeft := (activationCheck c rt t s eff).2 } t now, []) := by
  unfold physicsPhase
  dsimp only
  rw [if_pos hact, enterUpdate_of_inside _ _
    (show ({ rt with graceLeft := (activationCheck c rt t s eff).2 } :
      CircleRuntime).isHandInside = true from hinside)]

/-! ## Claim C1 -/

/-- Claim C1: on every call in which the inside condition of a zone (the
isActivated computation) holds, and likewise on every call with a null
fingertip, the activation flag after the call is true exactly when the
(post-call) clockwise accumulator has reached 90 degrees and now minus
the (post-call) last-clockwise timestamp is at most 2000 ms; in
particular, with a stationary fingertip inside the zone the flag goes
false once the freshness window has elapsed. -/
theorem c1_activation_iff :
    (∀ (c : CircleConfig) (rt : CircleRuntime) (tip : Option Point) (s : AppSettings)
        (eff now : ℝ),
      (tip = none ∨ ∃ t, tip = some t ∧ (activationCheck c rt t s eff).1 = true) →
      ((stepCircle c rt tip s eff now).1.isFilled = true ↔
        (ROTATE_TARGET_DEG ≤ (stepCircle c rt tip s eff now).1.cwAccum ∧
          now - (stepCircle c rt tip s eff now).1.lastCWTime ≤ SPIN_GRACE_MS))) ∧
    (∀ (c : CircleConfig) (rt : CircleRuntime) (t : Point) (s : AppSettings) (eff now : ℝ),
      (activationCheck c rt t s eff).1 = true →
      rt.isHandInside = true →
      rt.lastAngle = some (calculateAngle c.x c.y t.x t.y) →
      SPIN_GRACE_MS < now - rt.lastCWTime →
      (stepCircle c rt (some t) s eff now).1.isFilled = false) := by
  constructor
  · intro c rt tip s eff now hcase
    rw [stepCircle_isFilled, stepCircle_cwAccum, stepCircle_lastCWTime]
    rcases hcase with hnone | ⟨t, htip, hact⟩
    · subst hnone
      unfold physicsPhase
      dsimp only
      split
      · simp only [decide_eq_true_eq]
      · rename_i hstale
        simp only [decide_eq_true_eq]
        constructor
        · intro hc
          exact absurd hc.2 hstale
        · intro hc
          exact absurd hc.2 hstale
    · subst htip
      unfold physicsPhase
      dsimp only
      rw [if_pos hact]
      rw [insideStep_isFilled]
      simp only [decide_eq_true_eq]
  · intro c rt t s eff now hact hinside hla hstale
    have hsmall : |angleDiff (calculateAngle c.x c.y t.x t.y) (calculateAngle c.x c.y t.x t.y)| <
        STILL_EPS_DEG := by
      rw [angleDiff_self, abs_zero]
      norm_num [STILL_EPS_DEG]
    rw [stepCircle_isFilled, physicsPhase_inside c rt t s eff now hact hinside]
    rw [insideStep_of_lastAngle_some c _ t now (calculateAngle c.x c.y t.x t.y)
      (show ({ rt with graceLeft := (activationCheck c rt t s eff).2 } :
        CircleRuntime).lastAngle = some (calculateAngle c.x c.y t.x t.y) from hla)]
    rw [cwUpdate_still _ _ _ _ hsmall]
    dsimp only
    rw [decide_eq_false_iff_not]
    intro hc
    linarith [hc.2]

/-- Claim C1, witness: at a stale charged runtime with a null fingertip
the iff holds and yields a cleared flag, and with a stationary inside
fingertip the flag is false once the window has elapsed. -/
theorem c1_witness :
    ((some (Point.mk 50 0 none) : Option Point) = none ∨
      ∃ t, (some (Point.mk 50 0 none) : Option Point) = some t ∧
        (activationCheck zoneO rtCharged t stdSettings 0).1 = true) ∧
    ((stepCircle zoneO rtCharged (some (Point.mk 50 0 none)) stdSettings 0 0).1.isFilled =
        true ↔
      (ROTATE_TARGET_DEG ≤
          (stepCircle zoneO rtCharged (some (Point.mk 50 0 none)) stdSettings 0 0).1.cwAccum ∧
        0 - (stepCircle zoneO rtCharged (some (Point.mk 50 0 none))
            stdSettings 0 0).1.lastCWTime ≤ SPIN_GRACE_MS)) := by
  have hd : distTo zoneO (Point.mk 50 0 none) = 50 := by
    unfold distTo zoneO
    norm_num
    rw [show (2500:ℝ) = 50 ^ 2 by norm_num, Real.sqrt_sq (by norm_num : (0:ℝ) ≤ 50)]
  have hvis : visualInside zoneO rtCharged (Point.mk 50 0 none) = true := by
    exact visualInside_of_dist_le zoneO rtCharged (Point.mk 50 0 none)
      (by rw [hd]; norm_num [zoneO])
  have hact : (activationCheck zoneO rtCharged (Point.mk 50 0 none) stdSettings 0).1 = true := by
    unfold activationCheck
    rw [if_neg (by intro hc; cases hc), if_pos hvis]
  have hcase : (some (Point.mk 50 0 none) : Option Point) = none ∨
      ∃ t, (some (Point.mk 50 0 none) : Option Point) = some t ∧
        (activationCheck zoneO rtCharged t stdSettings 0).1 = true :=
    Or.inr ⟨Point.mk 50 0 none, rfl, hact⟩
  exact ⟨hcase,
    c1_activation_iff.1 zoneO rtCharged (some (Point.mk 50 0 none)) stdSettings 0 0 hcase⟩

/-! ## Claim C2 -/

/-- Claim C2: on a tick with the fingertip inside (the zone activated)
and a surviving previous angle reference, with diff the signed
shortest-path difference from the previous to the current angle: if
the absolute difference is at least 2 degrees, a positive diff adds
its absolute value to the accumulator and stamps the last-clockwise
time with now, a negative diff subtracts half its absolute value,
clamped below at 0, leaving the timestamp unchanged; below 2 degrees
both accumulator and timestamp are unchanged. -/
theorem c2_diff_update (c : CircleConfig) (rt : CircleRuntime) (t : Point)
    (s : AppSettings) (eff now la : ℝ)
    (hact : (activationCheck c rt t s eff).1 = true)
    (hinside : rt.isHandInside = true)
    (hla : rt.lastAngle = some la) :
    (STILL_EPS_DEG ≤ |angleDiff la (calculateAngle c.x c.y t.x t.y)| →
      0 < angleDiff la (calculateAngle c.x c.y t.x t.y) →
      (stepCircle c rt (some t) s eff now).1.cwAccum =
          rt.cwAccum + |angleDiff la (calculateAngle c.x c.y t.x t.y)| ∧
        (stepCircle c rt (some t) s eff now).1.lastCWTime = now) ∧
    (STILL_EPS_DEG ≤ |angleDiff la (calculateAngle c.x c.y t.x t.y)| →
      angleDiff la (calculateAngle c.x c.y t.x t.y) < 0 →
      (stepCircle c rt (some t) s eff now).1.cwAccum =
          max 0 (rt.cwAccum - |angleDiff la (calculateAngle c.x c.y t.x t.y)| * 0.5) ∧
        (stepCircle c rt (some t) s eff now).1.lastCWTime = rt.lastCWTime) ∧
    (|angleDiff la (calculateAngle c.x c.y t.x t.y)| < STILL_EPS_DEG →
      (stepCircle c rt (some t) s eff now).1.cwAccum = rt.cwAccum ∧
        (stepCircle c rt (some t) s eff now).1.lastCWTime = rt.lastCWTime) := by
  have hbase : ∀ now' : ℝ,
      (stepCircle c rt (some t) s eff now').1.cwAccum =
        (cwUpdate { rt with graceLeft := (activationCheck c rt t s eff).2 } la
          (calculateAngle c.x c.y t.x t.y) now').cwAccum ∧
      (stepCircle c rt (some t) s eff now').1.lastCWTime =
        (cwUpdate { rt with graceLeft := (activationCheck c rt t s eff).2 } la
          (calculateAngle c.x c.y t.x t.y) now').lastCWTime := by
    intro now'
    rw [stepCircle_cwAccum, stepCircle_lastCWTime,
      physicsPhase_inside c rt t s eff now' hact hinside]
    rw [insideStep_of_lastAngle_some c _ t now' la
      (show ({ rt with graceLeft := (activationCheck c rt t s eff).2 } :
        CircleRuntime).lastAngle = some la from hla)]
    exact ⟨rfl, rfl⟩
  rcases hbase now with ⟨hca, hct⟩
  rcases cwUpdate_spec { rt with graceLeft := (activationCheck c rt t s eff).2 } la
    (calculateAngle c.x c.y t.x t.y) now with ⟨hpos, hneg, hstill⟩
  refine ⟨?_, ?_, ?_⟩
  · intro h1 h2
    rcases hpos h1 h2 with ⟨ha, ht⟩
    exact ⟨by rw [hca, ha], by rw [hct, ht]⟩
  · intro h1 h2
    rcases hneg h1 h2 with ⟨ha, ht⟩
    exact ⟨by rw [hca, ha], by rw [hct, ht]⟩
  · intro h1
    rcases hstill h1 with ⟨ha, ht⟩
    exact ⟨by rw [hca, ha], by rw [hct, ht]⟩

/-- Claim C2, witness: at the origin zone with the fingertip at
(50, 0), previous angle 0 and current angle 0, the difference is below
2 degrees and the accumulator and timestamp are unchanged. -/
theorem c2_witness :
    ((activationCheck zoneO rtInside0 (Point.mk 50 0 none) stdSettings 0).1 = true ∧
      rtInside0.isHandInside = true ∧ rtInside0.lastAngle = some 0 ∧
      |angleDiff 0 (calculateAngle zoneO.x zoneO.y 50 0)| < STILL_EPS_DEG) ∧
    ((stepCircle zoneO rtInside0 (some (Point.mk 50 0 none)) stdSettings 0 7).1.cwAccum =
        rtInside0.cwAccum ∧
      (stepCircle zoneO rtInside0 (some (Point.mk 50 0 none))
          stdSettings 0 7).1.lastCWTime = rtInside0.lastCWTime) := by
  have hd : distTo zoneO (Point.mk 50 0 none) = 50 := by
    unfold distTo zoneO
    norm_num
    rw [show (2500:ℝ) = 50 ^ 2 by norm_num, Real.sqrt_sq (by norm_num : (0:ℝ) ≤ 50)]
  have hvis : visualInside zoneO rtInside0 (Point.mk 50 0 none) = true := by
    exact visualInside_of_dist_le zoneO rtInside0 (Point.mk 50 0 none)
      (by rw [hd]; norm_num [zoneO])
  have hact : (activationCheck zoneO rtInside0 (Point.mk 50 0 none) stdSettings 0).1 = true := by
    unfold activationCheck
    rw [if_neg (by intro hc; cases hc), if_pos hvis]
  have hang : calculateAngle zoneO.x zoneO.y 50 0 = 0 := by
    unfold calculateAngle zoneO atan2
    norm_num
  have hsmall : |angleDiff 0 (calculateAngle zoneO.x zoneO.y 50 0)| < STILL_EPS_DEG := by
    rw [hang, angleDiff_self, abs_zero]
    norm_num [STILL_EPS_DEG]
  exact ⟨⟨hact, rfl, rfl, hsmall⟩,
    (c2_diff_update zoneO rtInside0 (Point.mk 50 0 none) stdSettings 0 7 0
      hact rfl rfl).2.2 hsmall⟩

/-! ## Claim C5 -/

/-- One purely counter-clockwise call preserves a non-negative
accumulator below the rotation target and leaves the activation flag
false. -/
theorem ccwStep_invariant (c : CircleConfig) (rt : CircleRuntime) (k : PhysCall)
    (h0 : 0 ≤ rt.cwAccum) (h90 : rt.cwAccum < ROTATE_TARGET_DEG)
    (hneg : ∀ d, diffOfCall c rt k = some d → d < 0) :
    0 ≤ (callStep c rt k).cwAccum ∧ (callStep c rt k).cwAccum < ROTATE_TARGET_DEG ∧
      (callStep c rt k).isFilled = false := by
  have hnotReady : ¬ (ROTATE_TARGET_DEG ≤ rt.cwAccum ∧
      k.now - rt.lastCWTime ≤ SPIN_GRACE_MS) := by
    intro hc
    linarith [hc.1]
  unfold callStep
  rw [stepCircle_cwAccum, stepCircle_isFilled]
  have hDiff : ∀ d, diffOfCall c rt k = some d → d < 0 := hneg
  unfold diffOfCall at hDiff
  generalize hE : effectiveDepthOf k.settings k.tip k.globalDepthMm = eff at hDiff ⊢
  cases htip : k.tip with
  | none =>
    unfold physicsPhase
    dsimp only
    split
    · exact ⟨h0, h90, decide_eq_false hnotReady⟩
    · exact ⟨le_refl 0, by norm_num [ROTATE_TARGET_DEG], decide_eq_false hnotReady⟩
  | some t =>
    rw [htip] at hDiff
    dsimp only at hDiff
    by_cases hact : (activationCheck c rt t k.settings eff).1 = true
    · by_cases hin : rt.isHandInside = true
      · rw [physicsPhase_inside c rt t k.settings eff k.now hact hin]
        rcases Option.eq_none_or_eq_some rt.lastAngle with hla | ⟨la, hla⟩
        · rw [insideStep_of_lastAngle_none c _ t k.now
            (show ({ rt with graceLeft := (activationCheck c rt t k.settings eff).2 } :
              CircleRuntime).lastAngle = none from hla)]
          exact ⟨h0, h90, decide_eq_false hnotReady⟩
        · have hd : angleDiff la (calculateAngle c.x c.y t.x t.y) < 0 := by
            apply hDiff
            rw [if_pos hact, if_pos hin, hla]
          rw [insideStep_of_lastAngle_some c _ t k.now la
            (show ({ rt with graceLeft := (activationCheck c rt t k.settings eff).2 } :
              CircleRuntime).lastAngle = some la from hla)]
          rcases cwUpdate_spec { rt with graceLeft := (activationCheck c rt t k.settings eff).2 }
            la (calculateAngle c.x c.y t.x t.y) k.now with ⟨_, hnegcase, hstill⟩
          by_cases hbig : STILL_EPS_DEG ≤ |angleDiff la (calculateAngle c.x c.y t.x t.y)|
          · rcases hnegcase hbig hd with ⟨ha, _⟩
            dsimp only
            rw [ha]
            have habs : (0:ℝ) ≤ |angleDiff la (calculateAngle c.x c.y t.x t.y)| * 0.5 := by
              positivity
            have hle : max 0 (rt.cwAccum -
                |angleDiff la (calculateAngle c.x c.y t.x t.y)| * 0.5) ≤ rt.cwAccum :=
              max_le h0 (by linarith)
            refine ⟨le_max_left 0 _, lt_of_le_of_lt hle h90, ?_⟩
            rw [decide_eq_false_iff_not]
            intro hc
            exact absurd (le_trans hc.1 hle) (not_le.mpr h90)
          · rcases hstill (lt_of_not_le hbig) with ⟨ha, _⟩
            dsimp only
            rw [ha]
            refine ⟨h0, h90, ?_⟩
            rw [decide_eq_false_iff_not]
            intro hc
            exact absurd hc.1 (not_le.mpr h90)
      · unfold physicsPhase
        dsimp only
        rw [if_pos hact, hact]
        have hinf : rt.isHandInside = false := by
          cases hb : rt.isHandInside
          · rfl
          · exact absurd hb hin
        rw [enterUpdate_of_outside _
          (show ({ rt with graceLeft := (activationCheck c rt t k.settings eff).2 } :
            CircleRuntime).isHandInside = false from hinf)]
        rw [insideStep_of_lastAngle_none c _ t k.now rfl]
        exact ⟨h0, h90, decide_eq_false hnotReady⟩
    · unfold physicsPhase
      dsimp only
      rw [if_neg hact]
      refine ⟨by norm_num [exitReset], by norm_num [exitReset, ROTATE_TARGET_DEG], by
        simp [exitReset]⟩

/-- Claim C5, amended: the conclusion holds for every initial runtime
whose accumulator is non-negative and below the 90 degree rotation
target (the original non-negativity hypothesis alone is refuted by the
counterexample): along any purely counter-clockwise sequence of calls
the accumulator stays non-negative (and below the target) and the
activation flag is never set true by any call. -/
theorem c5_ccw_invariant (c : CircleConfig) (ks : List PhysCall) :
    ∀ rt : CircleRuntime, 0 ≤ rt.cwAccum → rt.cwAccum < ROTATE_TARGET_DEG →
      ccwRun c rt ks →
      ∀ rt' ∈ runStates c rt ks,
        (0 ≤ rt'.cwAccum ∧ rt'.cwAccum < ROTATE_TARGET_DEG) ∧ rt'.isFilled = false := by
  induction ks with
  | nil =>
    intro rt _ _ _ rt' hmem
    simp [runStates] at hmem
  | cons k ks ih =>
    intro rt h0 h90 hrun rt' hmem
    rcases hrun with ⟨hneg, hrest⟩
    rcases ccwStep_invariant c rt k h0 h90 hneg with ⟨h0', h90', hfill'⟩
    rw [runStates] at hmem
    rcases List.mem_cons.mp hmem with heq | htail
    · subst heq
      exact ⟨⟨h0', h90'⟩, hfill'⟩
    · exact ih (callStep c rt k) h0' h90' hrest rt' htail

/-- Claim C5, counterexample to the original hypothesis: a runtime with
non-negative accumulator 100, already past the target and fresh, on a
single call whose only computed angular difference is -1 (purely
counter-clockwise), gets its activation flag set to true by that
call. -/
theorem c5_counterexample :
    0 ≤ rtCharged.cwAccum ∧
      diffOfCall zoneO rtCharged
        (PhysCall.mk (some (Point.mk 50 0 none)) stdSettings none 0) = some (-1) ∧
      (-1 : ℝ) < 0 ∧
      (callStep zoneO rtCharged
        (PhysCall.mk (some (Point.mk 50 0 none)) stdSettings none 0)).isFilled = true := by
  have hang : calculateAngle zoneO.x zoneO.y 50 0 = 0 := by
    unfold calculateAngle zoneO atan2
    norm_num
  have hdiff : angleDiff 1 (calculateAngle zoneO.x zoneO.y 50 0) = -1 := by
    rw [hang]
    unfold angleDiff
    norm_num
    rw [wrapDown_of_not_gt (-1) (by norm_num), wrapUp_of_not_lt (-1) (by norm_num)]
  have hd : distTo zoneO (Point.mk 50 0 none) = 50 := by
    unfold distTo zoneO
    norm_num
    rw [show (2500:ℝ) = 50 ^ 2 by norm_num, Real.sqrt_sq (by norm_num : (0:ℝ) ≤ 50)]
  have hvis : visualInside zoneO rtCharged (Point.mk 50 0 none) = true :=
    visualInside_of_dist_le zoneO rtCharged (Point.mk 50 0 none)
      (by rw [hd]; norm_num [zoneO])
  have heff : effectiveDepthOf stdSettings (some (Point.mk 50 0 none)) none = 0 := by
    unfold effectiveDepthOf
    rw [if_neg (by intro hc; cases hc)]
  have hact : (activationCheck zoneO rtCharged (Point.mk 50 0 none) stdSettings
      (effectiveDepthOf stdSettings (some (Point.mk 50 0 none)) none)).1 = true := by
    unfold activationCheck
    rw [if_neg (by intro hc; cases hc), if_pos hvis]
  refine ⟨by norm_num [rtCharged], ?_, by norm_num, ?_⟩
  · unfold diffOfCall
    dsimp only
    rw [if_pos hact, if_pos (show rtCharged.isHandInside = true from rfl)]
    rw [show rtCharged.lastAngle = some 1 from rfl]
    dsimp only
    rw [hdiff]
  · unfold callStep
    rw [stepCircle_isFilled]
    dsimp only
    rw [physicsPhase_inside zoneO rtCharged (Point.mk 50 0 none) stdSettings _ 0 hact rfl]
    rw [insideStep_of_lastAngle_some zoneO _ (Point.mk 50 0 none) 0 1 rfl]
    rw [cwUpdate_still _ _ _ _ (by rw [hdiff]; norm_num [STILL_EPS_DEG])]
    dsimp only
    rw [decide_eq_true_eq]
    constructor
    · norm_num [rtCharged, ROTATE_TARGET_DEG]
    · norm_num [rtCharged, SPIN_GRACE_MS]

/-- Claim C5, witness for the amended invariant: from the idle runtime
(accumulator 0) a single null-fingertip call computes no difference,
and the lone post-state keeps a non-negative accumulator below the
target with the flag false. -/
theorem c5_witness :
    (0 ≤ defaultRuntime.cwAccum ∧ defaultRuntime.cwAccum < ROTATE_TARGET_DEG ∧
      ccwRun zoneO defaultRuntime [PhysCall.mk none stdSettings none 0]) ∧
    ((0 ≤ (callStep zoneO defaultRuntime (PhysCall.mk none stdSettings none 0)).cwAccum ∧
      (callStep zoneO defaultRuntime (PhysCall.mk none stdSettings none 0)).cwAccum <
        ROTATE_TARGET_DEG) ∧
      (callStep zoneO defaultRuntime (PhysCall.mk none stdSettings none 0)).isFilled =
        false) := by
  have hrun : ccwRun zoneO defaultRuntime [PhysCall.mk none stdSettings none 0] := by
    refine ⟨?_, trivial⟩
    intro d hdval
    unfold diffOfCall at hdval
    cases hdval
  have h0 : (0:ℝ) ≤ defaultRuntime.cwAccum := by norm_num [defaultRuntime]
  have h90 : defaultRuntime.cwAccum < ROTATE_TARGET_DEG := by
    norm_num [defaultRuntime, ROTATE_TARGET_DEG]
  refine ⟨⟨h0, h90, hrun⟩, ?_⟩
  exact c5_ccw_invariant zoneO [PhysCall.mk none stdSettings none 0] defaultRuntime h0 h90 hrun
    (callStep zoneO defaultRuntime (PhysCall.mk none stdSettings none 0))
    (List.mem_singleton.mpr rfl)

/-! ## Claim C3 -/

/-- The media actions of the physics part alone: exactly one gif pause,
fired when the fingertip is null, the freshness window has elapsed and
a gif animation is attached; nothing otherwise. -/
theorem physicsPhase_acts (c : CircleConfig) (rt : CircleRuntime) (tip : Option Point)
    (s : AppSettings) (eff now : ℝ) :
    (physicsPhase c rt tip s eff now).2 =
      if tip.isNone = true ∧ ¬ (now - rt.lastCWTime ≤ SPIN_GRACE_MS) ∧ rt.gifAnim = true
      then [MediaAction.gifPause] else [] := by
  unfold physicsPhase
  cases tip with
  | some t =>
    dsimp only
    split <;> simp
  | none =>
    dsimp only
    split
    · rename_i h
      simp [h]
    · rename_i h
      by_cases hg : rt.gifAnim <;> simp [h, hg]

/-- Counts of each media action fired by the edge detection, as
functions of the transition of the activation flag and the attached
media. -/
theorem edgeActions_counts (rt : CircleRuntime) :
    (edgeActions rt).count MediaAction.audioPlay =
      (if rt.wasFilled = false ∧ rt.isFilled = true ∧ rt.audioEl.isSome = true
        then 1 else 0) ∧
    (edgeActions rt).count MediaAction.audioPause =
      (if rt.wasFilled = true ∧ rt.isFilled = false ∧ rt.audioEl.isSome = true
        then 1 else 0) ∧
    (edgeActions rt).count MediaAction.gifPlay =
      (if rt.wasFilled = false ∧ rt.isFilled = true ∧ rt.gifAnim = true then 1 else 0) ∧
    (edgeActions rt).count MediaAction.gifPause =
      (if rt.wasFilled = true ∧ rt.isFilled = false ∧ rt.gifAnim = true then 1 else 0) := by
  unfold edgeActions
  cases hw : rt.wasFilled <;> cases hf : rt.isFilled <;>
    cases ha : rt.audioEl <;> cases hg : rt.gifAnim <;>
      simp [List.count_cons, List.count_nil, List.count_append]

/-- Claim C3, amended: per tick, the audio-resume and animation-play
actions fire exactly once on a false-to-true transition of the
activation flag (with the respective media attached) and never
otherwise; the audio-pause action fires exactly once on a true-to-false
transition and never otherwise; the animation-pause action fires once
on a true-to-false transition and, additionally, once on every
null-fingertip tick whose freshness window has elapsed while an
animation is attached, even when the activation flag does not change
(so on a stale null-fingertip true-to-false tick it fires twice). -/
theorem c3_media_action_counts (c : CircleConfig) (rt : CircleRuntime) (tip : Option Point)
    (s : AppSettings) (eff now : ℝ) :
    ((stepCircle c rt tip s eff now).2.count MediaAction.audioPlay =
      if rt.wasFilled = false ∧ (stepCircle c rt tip s eff now).1.isFilled = true ∧
          rt.audioEl.isSome = true then 1 else 0) ∧
    ((stepCircle c rt tip s eff now).2.count MediaAction.audioPause =
      if rt.wasFilled = true ∧ (stepCircle c rt tip s eff now).1.isFilled = false ∧
          rt.audioEl.isSome = true then 1 else 0) ∧
    ((stepCircle c rt tip s eff now).2.count MediaAction.gifPlay =
      if rt.wasFilled = false ∧ (stepCircle c rt tip s eff now).1.isFilled = true ∧
          rt.gifAnim = true then 1 else 0) ∧
    ((stepCircle c rt tip s eff now).2.count MediaAction.gifPause =
      (if tip.isNone = true ∧ ¬ (now - rt.lastCWTime ≤ SPIN_GRACE_MS) ∧ rt.gifAnim = true
        then 1 else 0) +
      (if rt.wasFilled = true ∧ (stepCircle c rt tip s eff now).1.isFilled = false ∧
          rt.gifAnim = true then 1 else 0)) := by
  have h5w := physicsPhase_wasFilled c rt tip s eff now
  have h5a := physicsPhase_audioEl c rt tip s eff now
  have h5g := physicsPhase_gifAnim c rt tip s eff now
  have h5f : (physicsPhase c rt tip s eff now).1.isFilled =
      (stepCircle c rt tip s eff now).1.isFilled :=
    (stepCircle_isFilled c rt tip s eff now).symm
  rcases edgeActions_counts (physicsPhase c rt tip s eff now).1 with ⟨e1, e2, e3, e4⟩
  simp only [h5w, h5a, h5g, h5f] at e1 e2 e3 e4
  rw [stepCircle_acts, List.count_append, List.count_append, List.count_append,
    List.count_append, physicsPhase_acts, e1, e2, e3, e4]
  refine ⟨?_, ?_, ?_, ?_⟩
  · split <;> simp
  · split <;> simp
  · split <;> simp
  · split <;> simp

/-- Claim C3, counterexample as stated: on a single true-to-false
transition caused by a stale null-fingertip tick, the attached
animation receives two pause calls in the same tick (one from the
stale-reset branch, one from the edge detection), so the
animation-pause action does not fire exactly once per transition, and
a media action also fires on such ticks when the flag does not change
at all. -/
theorem c3_counterexample :
    rtStale.wasFilled = true ∧
    (stepCircle zoneO rtStale none stdSettings 0 3000).1.isFilled = false ∧
    (stepCircle zoneO rtStale none stdSettings 0 3000).2 =
      [MediaAction.gifPause, MediaAction.audioPause, MediaAction.gifPause] ∧
    (stepCircle zoneO rtStale none stdSettings 0 3000).2.count MediaAction.gifPause = 2 := by
  have hstale : ¬ ((3000:ℝ) - rtStale.lastCWTime ≤ SPIN_GRACE_MS) := by
    norm_num [rtStale, SPIN_GRACE_MS]
  have hfval : decide (ROTATE_TARGET_DEG ≤ rtStale.cwAccum ∧
      (3000:ℝ) - rtStale.lastCWTime ≤ SPIN_GRACE_MS) = false :=
    decide_eq_false (by intro hc; exact hstale hc.2)
  have hPP : physicsPhase zoneO rtStale none stdSettings 0 3000 =
      ({ rtStale with isFilled := false, isHandInside := false, lastAngle := none, cwAccum := 0 }, [MediaAction.gifPause]) := by
    unfold physicsPhase
    dsimp only
    rw [if_neg hstale, hfval]
    rfl
  have hacts : (stepCircle zoneO rtStale none stdSettings 0 3000).2 =
      [MediaAction.gifPause, MediaAction.audioPause, MediaAction.gifPause] := by
    rw [stepCircle_acts, hPP]
    rfl
  refine ⟨rfl, ?_, hacts, ?_⟩
  · rw [stepCircle_isFilled, hPP]
  · rw [hacts]
    rfl

/-! ## Claim C8: lemmas about the runtime map -/

theorem lookup_isSome_iff (k : String) (m : RtMap) :
    (List.lookup k m).isSome = true ↔ k ∈ keysOf m := by
  induction m with
  | nil => simp [List.lookup, keysOf]
  | cons e rest ih =>
    cases e with
    | mk k' v =>
      by_cases h : k = k'
      · subst h
        simp [List.lookup, keysOf]
      · have hbe : (k == k') = false := beq_eq_false_iff_ne.mpr h
        simp [List.lookup, keysOf, hbe, h, ih]

theorem lookup_append_of_none {k : String} {m : RtMap} (l : RtMap)
    (h : List.lookup k m = none) : List.lookup k (m ++ l) = List.lookup k l := by
  induction m with
  | nil => simp
  | cons e rest ih =>
    cases e with
    | mk k' v =>
      by_cases hk : k = k'
      · subst hk
        simp [List.lookup] at h
      · have hbe : (k == k') = false := beq_eq_false_iff_ne.mpr hk
        simp only [List.lookup, hbe] at h
        rw [List.cons_append]
        simp only [List.lookup, hbe]
        exact ih h

theorem keysOf_writeEntry (m : RtMap) (k : String) (v : CircleRuntime) :
    keysOf (writeEntry m k v) = keysOf m := by
  induction m with
  | nil => rfl
  | cons e rest ih =>
    unfold writeEntry at ih ⊢
    unfold keysOf at ih ⊢
    simp only [List.map_cons]
    rw [ih]
    split <;> rfl

theorem mem_writeEntry_of_ne (m : RtMap) (k : String) (v : CircleRuntime)
    (e : String × CircleRuntime) (hmem : e ∈ m) (hne : e.1 ≠ k) :
    e ∈ writeEntry m k v := by
  unfold writeEntry
  have : e = if e.1 = k then (e.1, v) else e := by rw [if_neg hne]
  rw [this]
  exact List.mem_map_of_mem (fun x => if x.1 = k then (x.1, v) else x) hmem

theorem ensureStep_cases (m : RtMap) (c : CircleConfig) :
    (∃ rt, List.lookup c.id m = some rt ∧
      ensureStep m c = (writeEntry m c.id (audioUpdate c rt).1, (audioUpdate c rt).2)) ∨
    (List.lookup c.id m = none ∧
      ensureStep m c = (writeEntry (m ++ [(c.id, defaultRuntime)]) c.id
        (audioUpdate c defaultRuntime).1, (audioUpdate c defaultRuntime).2)) := by
  cases h : List.lookup c.id m with
  | some rt =>
    left
    refine ⟨rt, rfl, ?_⟩
    unfold ensureStep
    dsimp only
    rw [h]
    simp only [Option.isSome_some, if_true]
    rw [h]
  | none =>
    right
    refine ⟨rfl, ?_⟩
    unfold ensureStep
    rw [h]
    simp only [Option.isSome_none, Bool.false_eq_true, if_false]
    rw [lookup_append_of_none _ h]
    simp [List.lookup]

theorem ensureStep_keys_iff (m : RtMap) (c : CircleConfig) (id : String) :
    id ∈ keysOf (ensureStep m c).1 ↔ (id ∈ keysOf m ∨ id = c.id) := by
  rcases ensureStep_cases m c with ⟨rt, hl, he⟩ | ⟨hl, he⟩
  · rw [he]
    dsimp only
    rw [keysOf_writeEntry]
    constructor
    · exact fun hm => Or.inl hm
    · rintro (hm | hm)
      · exact hm
      · subst hm
        exact (lookup_isSome_iff c.id m).mp (by rw [hl]; rfl)
  · rw [he]
    dsimp only
    rw [keysOf_writeEntry]
    unfold keysOf
    rw [List.map_append]
    simp [List.mem_append]

theorem ensureStep_keys_nodup (m : RtMap) (c : CircleConfig)
    (h : (keysOf m).Nodup) : (keysOf (ensureStep m c).1).Nodup := by
  rcases ensureStep_cases m c with ⟨rt, hl, he⟩ | ⟨hl, he⟩
  · rw [he]
    dsimp only
    rw [keysOf_writeEntry]
    exact h
  · rw [he]
    dsimp only
    rw [keysOf_writeEntry]
    unfold keysOf
    rw [List.map_append]
    rw [List.nodup_append]
    refine ⟨h, List.nodup_singleton _, ?_⟩
    intro a ha hb
    simp only [List.map_cons, List.map_nil, List.mem_singleton] at hb
    subst hb
    have : (List.lookup c.id m).isSome = true := (lookup_isSome_iff c.id m).mpr ha
    rw [hl] at this
    cases this

theorem ensureStep_mem_of_ne (m : RtMap) (c : CircleConfig) (k : String)
    (rt : CircleRuntime) (hmem : (k, rt) ∈ m) (hne : k ≠ c.id) :
    (k, rt) ∈ (ensureStep m c).1 := by
  rcases ensureStep_cases m c with ⟨rt', hl, he⟩ | ⟨hl, he⟩
  · rw [he]
    exact mem_writeEntry_of_ne m c.id _ (k, rt) hmem hne
  · rw [he]
    exact mem_writeEntry_of_ne _ c.id _ (k, rt) (List.mem_append_left _ hmem) hne

theorem ensureAll_cons (c : CircleConfig) (cs : List CircleConfig)
    (acc : RtMap × List SyncAction) :
    ensureAll (c :: cs) acc =
      ensureAll cs ((ensureStep acc.1 c).1, acc.2 ++ (ensureStep acc.1 c).2) := rfl

theorem ensureAll_keys_iff (circles : List CircleConfig) :
    ∀ (acc : RtMap × List SyncAction) (id : String),
      id ∈ keysOf (ensureAll circles acc).1 ↔
        (id ∈ keysOf acc.1 ∨ id ∈ circles.map (fun c => c.id)) := by
  induction circles with
  | nil =>
    intro acc id
    simp [ensureAll]
  | cons c cs ih =>
    intro acc id
    rw [ensureAll_cons, ih]
    rw [ensureStep_keys_iff]
    simp only [List.map_cons, List.mem_cons]
    tauto

theorem ensureAll_keys_nodup (circles : List CircleConfig) :
    ∀ acc : RtMap × List SyncAction, (keysOf acc.1).Nodup →
      (keysOf (ensureAll circles acc).1).Nodup := by
  induction circles with
  | nil =>
    intro acc h
    exact h
  | cons c cs ih =>
    intro acc h
    rw [ensureAll_cons]
    exact ih _ (ensureStep_keys_nodup acc.1 c h)

theorem ensureAll_mem_of_not_config (circles : List CircleConfig) :
    ∀ (acc : RtMap × List SyncAction) (k : String) (rt : CircleRuntime),
      (k, rt) ∈ acc.1 → k ∉ circles.map (fun c => c.id) →
        (k, rt) ∈ (ensureAll circles acc).1 := by
  induction circles with
  | nil =>
    intro acc k rt hmem _
    exact hmem
  | cons c cs ih =>
    intro acc k rt hmem hnk
    simp only [List.map_cons, List.mem_cons, not_or] at hnk
    rw [ensureAll_cons]
    exact ih _ k rt (ensureStep_mem_of_ne acc.1 c k rt hmem hnk.1)
      (by simpa using hnk.2)

theorem cleanupEntries_keys_iff (keep : List String) :
    ∀ (m : RtMap) (id : String),
      id ∈ keysOf (cleanupEntries keep m).1 ↔ (id ∈ keysOf m ∧ id ∈ keep) := by
  intro m
  induction m with
  | nil =>
    intro id
    simp [cleanupEntries, keysOf]
  | cons e rest ih =>
    intro id
    cases e with
    | mk k rt =>
      unfold cleanupEntries
      dsimp only
      split
      · rename_i hk
        unfold keysOf
        simp only [List.map_cons, List.mem_cons]
        unfold keysOf at ih
        rw [ih]
        constructor
        · rintro (h | ⟨h1, h2⟩)
          · exact ⟨Or.inl h, h ▸ hk⟩
          · exact ⟨Or.inr h1, h2⟩
        · rintro ⟨h1 | h1, h2⟩
          · exact Or.inl h1
          · exact Or.inr ⟨h1, h2⟩
      · rename_i hk
        rw [ih]
        unfold keysOf
        simp only [List.map_cons, List.mem_cons]
        constructor
        · rintro ⟨h1, h2⟩
          exact ⟨Or.inr h1, h2⟩
        · rintro ⟨h1 | h1, h2⟩
          · subst h1
            exact absurd h2 hk
          · exact ⟨h1, h2⟩

theorem cleanupEntries_keys_sublist (keep : List String) :
    ∀ m : RtMap, (keysOf (cleanupEntries keep m).1).Sublist (keysOf m) := by
  intro m
  induction m with
  | nil =>
    simp [cleanupEntries, keysOf]
  | cons e rest ih =>
    cases e with
    | mk k rt =>
      unfold cleanupEntries
      dsimp only
      split
      · exact List.Sublist.cons₂ k ih
      · exact List.Sublist.cons k ih

theorem cleanupEntries_log (keep : List String) :
    ∀ (m : RtMap) (k : String) (rt : CircleRuntime),
      (k, rt) ∈ m → k ∉ keep → rt.audioEl.isSome = true →
      ∃ pre post, (cleanupEntries keep m).2 =
        pre ++ SyncAction.audioOff k :: SyncAction.removed k :: post := by
  intro m
  induction m with
  | nil =>
    intro k rt hmem
    simp at hmem
  | cons e rest ih =>
    intro k rt hmem hnk haud
    rcases List.mem_cons.mp hmem with heq | htail
    · subst heq
      unfold cleanupEntries
      dsimp only
      rw [if_neg hnk, if_pos haud]
      exact ⟨[], (cleanupEntries keep rest).2, rfl⟩
    · cases e with
      | mk k' rt' =>
        by_cases hk' : k' ∈ keep
        · unfold cleanupEntries
          dsimp only
          rw [if_pos hk']
          exact ih k rt htail hnk haud
        · unfold cleanupEntries
          dsimp only
          rw [if_neg hk']
          rcases ih k rt htail hnk haud with ⟨pre, post, hp⟩
          refine ⟨(if rt'.audioEl.isSome = true then [SyncAction.audioOff k'] else []) ++
            (SyncAction.removed k' :: pre), post, ?_⟩
          rw [hp]
          simp

/-! ## Claim C8 -/

/-- Claim C8: after a run of the runtime synchronisation on a
configuration list (starting from any map with no duplicate keys, the
invariant a JavaScript Map provides), the resulting map has exactly
one entry per configured id (its key list contains an id exactly when
the configuration does, with no duplicates), and every entry whose id
left the configuration has its attached audio paused immediately
before its deletion in the effect log. -/
theorem c8_sync_runtime (circles : List CircleConfig) (m : RtMap)
    (hnd : (keysOf m).Nodup) :
    (∀ id, id ∈ keysOf (syncRuntime circles m).1 ↔ id ∈ circles.map (fun c => c.id)) ∧
    (keysOf (syncRuntime circles m).1).Nodup ∧
    (∀ (k : String) (rt : CircleRuntime), (k, rt) ∈ m →
      k ∉ circles.map (fun c => c.id) → rt.audioEl.isSome = true →
      ∃ pre post, (syncRuntime circles m).2 =
        pre ++ SyncAction.audioOff k :: SyncAction.removed k :: post) := by
  refine ⟨?_, ?_, ?_⟩
  · intro id
    unfold syncRuntime
    dsimp only
    rw [cleanupEntries_keys_iff]
    rw [ensureAll_keys_iff]
    constructor
    · exact fun h => h.2
    · intro h
      exact ⟨Or.inr h, h⟩
  · unfold syncRuntime
    dsimp only
    exact List.Nodup.sublist
      (cleanupEntries_keys_sublist (circles.map (fun c => c.id)) _)
      (ensureAll_keys_nodup circles (m, []) hnd)
  · intro k rt hmem hnk haud
    unfold syncRuntime
    dsimp only
    have hmem1 : (k, rt) ∈ (ensureAll circles (m, [])).1 :=
      ensureAll_mem_of_not_config circles (m, []) k rt hmem hnk
    rcases cleanupEntries_log (circles.map (fun c => c.id)) _ k rt hmem1 hnk haud with
      ⟨pre, post, hp⟩
    refine ⟨(ensureAll circles (m, [])).2 ++ pre, post, ?_⟩
    rw [hp]
    simp

/-- Claim C8, witness: a map holding a single entry with attached audio
whose id is absent from an empty configuration: after synchronisation
the map is empty and the log pauses the audio right before the entry is
removed. -/
theorem c8_witness :
    (keysOf [("a", rtStale)]).Nodup ∧
    (¬ "a" ∈ keysOf (syncRuntime [] [("a", rtStale)]).1) ∧
    (∃ pre post, (syncRuntime [] [("a", rtStale)]).2 =
      pre ++ SyncAction.audioOff "a" :: SyncAction.removed "a" :: post) := by
  have hnd : (keysOf [("a", rtStale)]).Nodup := List.nodup_singleton _
  rcases c8_sync_runtime [] [("a", rtStale)] hnd with ⟨hkeys, _, hlog⟩
  refine ⟨hnd, ?_, ?_⟩
  · intro hmem
    have := (hkeys "a").mp hmem
    simp at this
  · exact hlog "a" rtStale (List.mem_singleton.mpr rfl) (by simp) rfl

end NeuLP
